import Mathlib

/-!
Verification model of the realtime whiteboard server
(`src/backend/server.js`) and its browser client (`src/unnamed/part_001`).

The server keeps an in-memory room registry (`rooms`), a socket.io room
adapter (the live connection set per room code), a `userRooms` map, and an
optional Redis store holding a per-room hash plus per-room stroke and image
lists.  Each socket.io handler is translated below as a pure function from a
`ServerState` and the incoming event to a new `ServerState` together with the
list of messages emitted.  JavaScript maps/objects become association lists,
`Date.now()` becomes an explicit `now : Nat` argument, and Redis availability
becomes the boolean `redisAvailable` (an unavailable store makes every store
call degrade exactly the way the corresponding `try`/`catch` in the source
does).  Fields that can hold JavaScript `undefined` are modelled with
`Option`; the `drawingEnabled` slot can hold `undefined`, a boolean, or a
string (the value cached back from Redis), which the inductive `DrawFlag`
captures so that the strict `=== false` comparison of the source is kept.
-/

set_option autoImplicit false

namespace Whiteboard

/-! ### Association-list maps

JavaScript plain objects and `Map`s are modelled as association lists.
`aupdate` mirrors property assignment (replace the binding if present, append
otherwise) and `aerase` mirrors the `delete` operator. -/

def alookup {κ α : Type} [DecidableEq κ] : List (κ × α) → κ → Option α
  | [], _ => none
  | (k, v) :: rest, key => if k = key then some v else alookup rest key

def aupdate {κ α : Type} [DecidableEq κ] : List (κ × α) → κ → α → List (κ × α)
  | [], key, v => [(key, v)]
  | (k, w) :: rest, key, v =>
      if k = key then (k, v) :: rest else (k, w) :: aupdate rest key v

def aerase {κ α : Type} [DecidableEq κ] : List (κ × α) → κ → List (κ × α)
  | [], _ => []
  | (k, w) :: rest, key =>
      if k = key then aerase rest key else (k, w) :: aerase rest key

/-! ### Data model -/

/-- The value held in a room record's `drawingEnabled` slot.  The slot is a
boolean when written by `createRoom`/`joinRoom`/`toggleDrawing`, absent
(`undefined`) for rooms created by the `GET /room/:roomCode` route, and a
string (`'true'`/`'false'`) when the record was cached back from the Redis
hash, where `hGetAll` yields strings. -/
inductive DrawFlag
  | undef
  | boolVal (b : Bool)
  | strVal (s : String)
  deriving DecidableEq

/-- In-memory room record (an entry of the server's `rooms` object).
`creatorId` is `none` when the slot is JavaScript `undefined`/`null`. -/
structure RoomInfo where
  createdAt : Nat
  lastActive : Nat
  users : Nat
  creatorId : Option String
  drawingEnabled : DrawFlag
  deriving DecidableEq

/-- Redis hash `room:<code>` as the source writes it; every field is optional
because different creation paths write different subsets (the
`GET /room/:roomCode` route omits `creatorId` and `drawingEnabled`). -/
structure RedisRoomHash where
  createdAt : Option Nat := none
  lastActive : Option Nat := none
  users : Option Nat := none
  creatorId : Option String := none
  drawingEnabled : Option String := none
  deriving DecidableEq

/-- One stroke segment as produced by the client's `draw` handler.  The
server stores and relays it opaquely. -/
structure Stroke where
  startX : Int
  startY : Int
  endX : Int
  endY : Int
  color : String
  size : Int
  tool : String
  deriving DecidableEq

/-- Incoming `pasteImage` payload; `timestamp`/`userId` may be absent and are
defaulted by the server. -/
structure ImageIn where
  imageData : String
  x : Int
  y : Int
  width : Int
  height : Int
  timestamp : Option Nat
  userId : Option String
  deriving DecidableEq

/-- Image record after the server's defaulting, as stored in the Redis image
list and broadcast. -/
structure ImageRec where
  imageData : String
  x : Int
  y : Int
  width : Int
  height : Int
  timestamp : Nat
  userId : String
  deriving DecidableEq

/-- Placement metadata carried on the first chunk of a chunked image
transfer. -/
structure ChunkMeta where
  x : Int
  y : Int
  width : Int
  height : Int
  deriving DecidableEq

/-- One `imageChunk` message (client `sendImageInChunks`). -/
structure ChunkMsg where
  chunkIndex : Nat
  totalChunks : Nat
  chunk : String
  userId : String
  timestamp : Nat
  meta : Option ChunkMeta
  deriving DecidableEq

/-- Whole-server state.  `adapter` is socket.io's room-to-sockets map (the
live connection set per room; entries are removed when they become empty,
matching socket.io).  `currentRoom` models the per-connection `currentRoom`
closure variable, keyed by socket id.  `headerCreator` is the per-connection
`x-creator-id` handshake header.  `redisAvailable` is
`isRedisAvailable()`. -/
structure ServerState where
  rooms : List (String × RoomInfo)
  redisRooms : List (String × RedisRoomHash)
  redisPoints : List (String × List Stroke)
  redisImages : List (String × List ImageRec)
  redisAvailable : Bool
  adapter : List (String × List String)
  currentRoom : List (String × String)
  userRooms : List (String × String)
  headerCreator : List (String × String)
  deriving DecidableEq

/-- Messages emitted back to clients.  `exceptSid` fields record a
`socket.to(room)` broadcast, delivered to every current room member except
that socket; `target` fields record a direct `socket.emit`.  Purely
cosmetic payload fields of the source (timestamps inside notifications,
`domain`, log text) are not tracked. -/
inductive Emission
  | roomJoined (target code : String) (users : Nat) (isCreator : Bool)
      (drawingEnabled : DrawFlag)
  | userJoined (code exceptSid : String) (users : Nat)
  | userLeftCount (code sid : String) (users : Nat)
  | userLeftPlain (code sid : String)
  | userCountUpdated (code : String) (users : Nat)
  | loadDrawing (target : String) (points : List Stroke)
  | loadImages (target : String) (images : List ImageRec)
  | drawRelay (code exceptSid : String) (data : Stroke)
  | imageChunkRelay (code exceptSid : String) (data : ChunkMsg)
  | pasteImageRelay (code exceptSid : String) (data : ImageRec)
  | drawingPermissionChanged (code : String) (enabled : Bool) (changedBy : String)
  | clearCanvasRelay (code exceptSid : String)
  | usersListEvt (code : String) (members : List String) (creatorId : Option String)
  | errorEvt (target : String)
  deriving DecidableEq

/-- Live connection set of a room (`io.sockets.adapter.rooms.get(code)`,
empty when the room key is absent). -/
def liveSet (s : ServerState) (code : String) : List String :=
  (alookup s.adapter code).getD []

/-- `sockets ? sockets.size : 0` of the source. -/
def liveSize (s : ServerState) (code : String) : Nat :=
  (liveSet s code).length

/-- `socket.join(code)`: socket.io adds the socket to the room's set
(appending preserves no duplicates). -/
def adapterJoin (s : ServerState) (sid code : String) : ServerState :=
  let l := liveSet s code
  if sid ∈ l then s else { s with adapter := aupdate s.adapter code (l ++ [sid]) }

/-- `socket.leave(code)` / transport removal on disconnect: socket.io removes
the socket and drops the room key once the set is empty. -/
def adapterLeave (s : ServerState) (sid code : String) : ServerState :=
  let l := (liveSet s code).filter (fun x => x ≠ sid)
  if l = [] then { s with adapter := aerase s.adapter code }
  else { s with adapter := aupdate s.adapter code l }

/-- `updateRoomInfo(roomCode)` of the source: recompute the member count
from the live connection set; on drift, write it (and a fresh `lastActive`)
back to the registry and notify the room. -/
def updateRoomInfo (now : Nat) (s : ServerState) (code : String) :
    ServerState × List Emission :=
  match alookup s.rooms code with
  | none => (s, [])
  | some room =>
      let actualUsers := liveSize s code
      if room.users ≠ actualUsers then
        ({ s with rooms :=
            aupdate s.rooms code { room with users := actualUsers, lastActive := now } },
         [Emission.userCountUpdated code actualUsers])
      else (s, [])

/-- Conversion performed when a Redis hash is cached into memory
(`hGetAll` plus the `parseInt(x) || fallback` coercions of the source).
String fields stay strings, which is why `drawingEnabled` becomes
`DrawFlag.strVal`. -/
def roomOfHash (now : Nat) (h : RedisRoomHash) : RoomInfo :=
  { createdAt := match h.createdAt with
      | none => now
      | some n => if n = 0 then now else n
    lastActive := match h.lastActive with
      | none => now
      | some n => if n = 0 then now else n
    users := h.users.getD 0
    creatorId := h.creatorId
    drawingEnabled := match h.drawingEnabled with
      | none => DrawFlag.undef
      | some str => DrawFlag.strVal str }

/-- `createRoom(roomCode, creatorId)` of the source: write the in-memory
record, then mirror it to the Redis hash best-effort (`creatorId || ''`
turns a missing creator into the empty string there). -/
def createRoom (now : Nat) (s : ServerState) (code : String)
    (creatorId : Option String) : ServerState :=
  let r : RoomInfo :=
    { createdAt := now, lastActive := now, users := 0,
      creatorId := creatorId, drawingEnabled := DrawFlag.boolVal true }
  let s1 := { s with rooms := aupdate s.rooms code r }
  let h : RedisRoomHash :=
    { createdAt := some now, lastActive := some now, users := some 0,
      creatorId := some (creatorId.getD ""), drawingEnabled := some "true" }
  if s1.redisAvailable then
    { s1 with redisRooms := aupdate s1.redisRooms code h }
  else s1

/-- `getRoomInfo(roomCode)` of the source: memory first, else the Redis hash,
which is cached back into memory.  (The final `catch` of the source, which
fabricates a bare default record, is unreachable in this model because no
modelled operation throws.) -/
def getRoomInfoM (now : Nat) (s : ServerState) (code : String) :
    ServerState × Option RoomInfo :=
  match alookup s.rooms code with
  | some r => (s, some r)
  | none =>
      if s.redisAvailable then
        match alookup s.redisRooms code with
        | some h =>
            let r := roomOfHash now h
            ({ s with rooms := aupdate s.rooms code r }, some r)
        | none => (s, none)
      else (s, none)

/-- The body of `createUniqueRoomCode`'s `while (exists)` loop applied to an
explicit list of sampled candidate codes: take the first candidate whose
`getRoomInfo` lookup (existence re-check) comes back empty.  Returning
`none` corresponds to the source looping beyond the supplied samples; see
`genLoop` for the fuel-indexed view of that loop. -/
def findUnusedCode (now : Nat) : ServerState → List String →
    Option (ServerState × String)
  | _, [] => none
  | s, c :: rest =>
      match getRoomInfoM now s c with
      | (s1, some _) => findUnusedCode now s1 rest
      | (s1, none) => some (s1, c)

/-- `GET /api/create-room`: generate an unused code, then `createRoom` with
the requester-derived creator id.  When every sampled candidate exists the
source never leaves the generation loop; that case is modelled as a
stutter. -/
def handleApiCreateRoom (now : Nat) (s : ServerState) (candidates : List String)
    (creatorId : String) : ServerState × List Emission :=
  match findUnusedCode now s candidates with
  | some (s1, code) => (createRoom now s1 code (some creatorId), [])
  | none => (s, [])

/-- `GET /room/:roomCode`: an unknown code is silently materialised with a
bare record carrying neither `creatorId` nor `drawingEnabled`; the Redis
mirror likewise omits both fields. -/
def handleRoomPage (now : Nat) (s : ServerState) (code : String) :
    ServerState × List Emission :=
  match alookup s.rooms code with
  | some _ => (s, [])
  | none =>
      let r : RoomInfo :=
        { createdAt := now, lastActive := now, users := 0,
          creatorId := none, drawingEnabled := DrawFlag.undef }
      let s1 := { s with rooms := aupdate s.rooms code r }
      let h : RedisRoomHash :=
        { createdAt := some now, lastActive := some now, users := some 0 }
      let s2 := if s1.redisAvailable then
          { s1 with redisRooms := aupdate s1.redisRooms code h }
        else s1
      (s2, [])

/-- First phase of `socket.on('joinRoom')`: when the socket was already in a
room, leave it, reconcile that room, notify it (the `userLeft` sent here
carries no member count in the source), and drop the `userRooms` entry. -/
def joinLeavePhase (now : Nat) (s : ServerState) (sid : String) :
    ServerState × List Emission :=
  match alookup s.currentRoom sid with
  | none => (s, [])
  | some prev =>
      let s1 := adapterLeave s sid prev
      let (s2, em) := updateRoomInfo now s1 prev
      ({ s2 with userRooms := aerase s2.userRooms sid },
       em ++ [Emission.userLeftPlain prev sid])

/-- Room creation inside `joinRoom` when the code is unknown everywhere: the
joining socket itself becomes the creator. -/
def joinCreateRoom (now : Nat) (s : ServerState) (sid code : String) :
    ServerState × RoomInfo :=
  let r : RoomInfo :=
    { createdAt := now, lastActive := now, users := 0,
      creatorId := some sid, drawingEnabled := DrawFlag.boolVal true }
  let s1 := { s with rooms := aupdate s.rooms code r }
  let h : RedisRoomHash :=
    { createdAt := some now, lastActive := some now, users := some 0,
      creatorId := some sid, drawingEnabled := some "true" }
  let s2 := if s1.redisAvailable then
      { s1 with redisRooms := aupdate s1.redisRooms code h }
    else s1
  (s2, r)

/-- Lookup phase of `joinRoom`: memory, else Redis (cached back), else create
with the joiner as creator. -/
def joinLookupPhase (now : Nat) (s : ServerState) (sid code : String) :
    ServerState × RoomInfo :=
  match alookup s.rooms code with
  | some r => (s, r)
  | none =>
      if s.redisAvailable then
        match alookup s.redisRooms code with
        | some h =>
            let r := roomOfHash now h
            ({ s with rooms := aupdate s.rooms code r }, r)
        | none => joinCreateRoom now s sid code
      else joinCreateRoom now s sid code

/-- `socket.join(roomCode)` plus `currentRoom = roomCode` plus
`userRooms.set(socket.id, roomCode)`. -/
def joinJoined (s : ServerState) (sid code : String) : ServerState :=
  let s3 := adapterJoin s sid code
  { s3 with currentRoom := aupdate s3.currentRoom sid code,
            userRooms := aupdate s3.userRooms sid code }

/-- `socket.on('joinRoom')` (the handler at line 576; the second handler
registered at line 1116 reads the undeclared variable `roomInfo`, so it
throws before emitting anything and is modelled as absent). -/
def handleJoinRoom (now : Nat) (s : ServerState) (sid code : String) :
    ServerState × List Emission :=
  let p1 := joinLeavePhase now s sid
  let p2 := joinLookupPhase now p1.fst sid code
  let s4 := joinJoined p2.fst sid code
  let p5 := updateRoomInfo now s4 code
  let actualUsers := liveSize p5.fst code
  let em3 := [Emission.roomJoined sid code actualUsers
                (p2.snd.creatorId = some sid) p2.snd.drawingEnabled,
              Emission.userJoined code sid actualUsers]
  let em4 := if p5.fst.redisAvailable then
      [Emission.loadDrawing sid ((alookup p5.fst.redisPoints code).getD [])]
    else [Emission.loadDrawing sid []]
  let em5 := if p5.fst.redisAvailable then
      (let images := (alookup p5.fst.redisImages code).getD []
       if images.length > 0 then [Emission.loadImages sid images] else [])
    else [Emission.loadImages sid []]
  (p5.fst, p1.snd ++ p5.snd ++ em3 ++ em4 ++ em5)

/-- `saveDrawingPoint`: `rPush` onto the room's point list when the store is
up; store failure or unavailability is swallowed. -/
def saveDrawingPoint (s : ServerState) (code : String) (data : Stroke) :
    ServerState :=
  if s.redisAvailable then
    { s with redisPoints :=
        aupdate s.redisPoints code (((alookup s.redisPoints code).getD []) ++ [data]) }
  else s

/-- `socket.on('draw')`: silent return when not joined or the room record is
missing; silent drop when drawing is strictly `=== false` and the sender is
not the creator; otherwise persist best-effort and relay to the rest of the
room.  No branch emits an error. -/
def handleDraw (s : ServerState) (sid : String) (data : Stroke) :
    ServerState × List Emission :=
  match alookup s.currentRoom sid with
  | none => (s, [])
  | some code =>
      match alookup s.rooms code with
      | none => (s, [])
      | some roomInfo =>
          if roomInfo.drawingEnabled = DrawFlag.boolVal false ∧
              roomInfo.creatorId ≠ some sid then (s, [])
          else (saveDrawingPoint s code data, [Emission.drawRelay code sid data])

/-- `socket.on('imageChunk')`: error when not joined, otherwise the chunk is
relayed to the rest of the room and nothing is stored server-side. -/
def handleImageChunk (s : ServerState) (sid : String) (data : ChunkMsg) :
    ServerState × List Emission :=
  match alookup s.currentRoom sid with
  | none => (s, [Emission.errorEvt sid])
  | some code => (s, [Emission.imageChunkRelay code sid data])

/-- The `userId`/`timestamp` defaulting at the top of `pasteImage`
(JavaScript falsiness: absent, empty string, and zero are replaced). -/
def normalizeImage (now : Nat) (sid : String) (i : ImageIn) : ImageRec :=
  { imageData := i.imageData, x := i.x, y := i.y,
    width := i.width, height := i.height,
    timestamp := match i.timestamp with
      | none => now
      | some t => if t = 0 then now else t
    userId := match i.userId with
      | none => sid
      | some u => if u = "" then sid else u }

/-- `saveImage`: `rPush` onto the room's image list, returning `true`; when
the store is unavailable (or errors) it returns `false`. -/
def saveImage (s : ServerState) (code : String) (img : ImageRec) :
    ServerState × Bool :=
  if s.redisAvailable then
    ({ s with redisImages :=
        aupdate s.redisImages code (((alookup s.redisImages code).getD []) ++ [img]) },
     true)
  else (s, false)

/-- `socket.on('pasteImage')`: error when not joined; otherwise save, and on
`saved === false` report an error to the sender instead of broadcasting. -/
def handlePasteImage (now : Nat) (s : ServerState) (sid : String) (data : ImageIn) :
    ServerState × List Emission :=
  match alookup s.currentRoom sid with
  | none => (s, [Emission.errorEvt sid])
  | some code =>
      let img := normalizeImage now sid data
      let r := saveImage s code img
      if r.snd then (r.fst, [Emission.pasteImageRelay code sid img])
      else (r.fst, [Emission.errorEvt sid])

/-- The creator test shared by `toggleDrawing` and `clearCanvas`:
`socket.id === creatorId || handshake['x-creator-id'] === creatorId`.  Note
that a missing header compared against a missing creator id is `undefined
=== undefined`, i.e. true, which `none = none` mirrors. -/
def isCreatorCheck (s : ServerState) (sid : String) (roomInfo : RoomInfo) : Bool :=
  decide (roomInfo.creatorId = some sid) ||
    decide (alookup s.headerCreator sid = roomInfo.creatorId)

/-- `socket.on('toggleDrawing')`. -/
def handleToggleDrawing (s : ServerState) (sid : String) (enabled : Bool) :
    ServerState × List Emission :=
  match alookup s.currentRoom sid with
  | none => (s, [Emission.errorEvt sid])
  | some code =>
      match alookup s.rooms code with
      | none => (s, [Emission.errorEvt sid])
      | some roomInfo =>
          if isCreatorCheck s sid roomInfo then
            let room1 := { roomInfo with drawingEnabled := DrawFlag.boolVal enabled }
            let s1 := { s with rooms := aupdate s.rooms code room1 }
            let h0 := (alookup s1.redisRooms code).getD {}
            let h1 := { h0 with
              drawingEnabled := some (if enabled then "true" else "false") }
            let s2 := if s1.redisAvailable then
                { s1 with redisRooms := aupdate s1.redisRooms code h1 }
              else s1
            (s2, [Emission.drawingPermissionChanged code enabled sid])
          else (s, [Emission.errorEvt sid])

/-- `socket.on('clearCanvas')`: silent return when not joined (no error);
creator-only; deletes both Redis lists best-effort and relays the clear. -/
def handleClearCanvas (s : ServerState) (sid : String) :
    ServerState × List Emission :=
  match alookup s.currentRoom sid with
  | none => (s, [])
  | some code =>
      match alookup s.rooms code with
      | none => (s, [Emission.errorEvt sid])
      | some roomInfo =>
          if isCreatorCheck s sid roomInfo then
            let s1 := if s.redisAvailable then
                { s with redisPoints := aerase s.redisPoints code,
                         redisImages := aerase s.redisImages code }
              else s
            (s1, [Emission.clearCanvasRelay code sid])
          else (s, [Emission.errorEvt sid])

/-- `getDrawingPoints`: the stored list, or `[]` on unavailability. -/
def getDrawingPoints (s : ServerState) (code : String) : List Stroke :=
  if s.redisAvailable then (alookup s.redisPoints code).getD [] else []

/-- `getImages`: the stored list, or `[]` on unavailability. -/
def getImages (s : ServerState) (code : String) : List ImageRec :=
  if s.redisAvailable then (alookup s.redisImages code).getD [] else []

/-- `socket.on('requestDrawingData')`: silent return when not joined. -/
def handleRequestDrawingData (s : ServerState) (sid : String) :
    ServerState × List Emission :=
  match alookup s.currentRoom sid with
  | none => (s, [])
  | some code => (s, [Emission.loadDrawing sid (getDrawingPoints s code)])

/-- `socket.on('requestImageData')`: explicit error when not joined. -/
def handleRequestImageData (s : ServerState) (sid : String) :
    ServerState × List Emission :=
  match alookup s.currentRoom sid with
  | none => (s, [Emission.errorEvt sid])
  | some code => (s, [Emission.loadImages sid (getImages s code)])

/-- `socket.on('disconnect')`: socket.io has already removed the socket from
its room when the handlers run.  The handler registered at line 1137 pushes
a `usersList` refresh; the one at line 1165 drops the `userRooms` entry,
reconciles, and notifies the room with the recomputed live count. -/
def handleDisconnect (now : Nat) (s : ServerState) (sid : String) :
    ServerState × List Emission :=
  match alookup s.currentRoom sid with
  | none => (s, [])
  | some code =>
      let s0 := adapterLeave s sid code
      let em1 := match alookup s0.rooms code with
        | some roomInfo =>
            match alookup s0.adapter code with
            | some members => [Emission.usersListEvt code members roomInfo.creatorId]
            | none => []
        | none => []
      let s1 := { s0 with userRooms := aerase s0.userRooms sid }
      let p := updateRoomInfo now s1 code
      let actualUsers := liveSize p.fst code
      (p.fst, em1 ++ p.snd ++ [Emission.userLeftCount code sid actualUsers])

/-- One iteration of the reconciliation loop of the 60-second
`setInterval` (lines 1252-1287): recompute the live count, write back on
drift (memory unconditionally; the Redis hash only when the store is up and
the key exists — the bare `redisClient.exists` call throws inside its
`try` otherwise), and notify the room.  The room is re-read from the
registry, matching the live object reference the source iterates over. -/
def reconcileRoom (now : Nat) (acc : ServerState × List Emission) (code : String) :
    ServerState × List Emission :=
  match alookup acc.fst.rooms code with
  | none => acc
  | some room =>
      let actualUsers := liveSize acc.fst code
      if room.users ≠ actualUsers then
        let room1 := { room with users := actualUsers }
        let s1 := { acc.fst with rooms := aupdate acc.fst.rooms code room1 }
        let s2 := if s1.redisAvailable then
            match alookup s1.redisRooms code with
            | some h =>
                let h1 := { h with users := some actualUsers, lastActive := some now }
                { s1 with redisRooms := aupdate s1.redisRooms code h1 }
            | none => s1
          else s1
        (s2, acc.snd ++ [Emission.userCountUpdated code actualUsers])
      else acc

/-- One iteration of the empty-room eviction loop of the same interval
(lines 1290-1316).  The in-memory `delete rooms[roomCode]` sits after the
three un-guarded `redisClient.del` calls inside the `try`, so when the store
is unavailable those calls throw/reject and the `catch` skips the in-memory
delete as well: nothing is evicted. -/
def evictRoom (now : Nat) (acc : ServerState × List Emission) (code : String) :
    ServerState × List Emission :=
  match alookup acc.fst.rooms code with
  | none => acc
  | some room =>
      if room.users ≤ 0 ∧ now - room.lastActive > 60 * 60 * 1000 then
        if acc.fst.redisAvailable then
          ({ acc.fst with
              redisRooms := aerase acc.fst.redisRooms code,
              redisPoints := aerase acc.fst.redisPoints code,
              redisImages := aerase acc.fst.redisImages code,
              rooms := aerase acc.fst.rooms code }, acc.snd)
        else acc
      else acc

/-- The whole 60-second `setInterval`: reconcile every known room, then
sweep empty inactive ones.  Each loop iterates a fresh
`Object.entries(rooms)` snapshot. -/
def handleInterval (now : Nat) (s : ServerState) : ServerState × List Emission :=
  let p1 := (s.rooms.map Prod.fst).foldl (reconcileRoom now) (s, [])
  (p1.fst.rooms.map Prod.fst).foldl (evictRoom now) p1

/-- Inbound events the modelled core consumes. -/
inductive Event
  | joinRoom (sid code : String)
  | draw (sid : String) (data : Stroke)
  | imageChunk (sid : String) (data : ChunkMsg)
  | pasteImage (sid : String) (data : ImageIn)
  | clearCanvas (sid : String)
  | toggleDrawing (sid : String) (enabled : Bool)
  | requestDrawingData (sid : String)
  | requestImageData (sid : String)
  | disconnect (sid : String)
  | apiCreateRoom (candidates : List String) (creatorId : String)
  | httpRoomPage (code : String)
  | interval
  deriving DecidableEq

/-- Event dispatch: one handler invocation runs to completion. -/
def step (now : Nat) (s : ServerState) : Event → ServerState × List Emission
  | Event.joinRoom sid code => handleJoinRoom now s sid code
  | Event.draw sid data => handleDraw s sid data
  | Event.imageChunk sid data => handleImageChunk s sid data
  | Event.pasteImage sid data => handlePasteImage now s sid data
  | Event.clearCanvas sid => handleClearCanvas s sid
  | Event.toggleDrawing sid enabled => handleToggleDrawing s sid enabled
  | Event.requestDrawingData sid => handleRequestDrawingData s sid
  | Event.requestImageData sid => handleRequestImageData s sid
  | Event.disconnect sid => handleDisconnect now s sid
  | Event.apiCreateRoom candidates creatorId => handleApiCreateRoom now s candidates creatorId
  | Event.httpRoomPage code => handleRoomPage now s code
  | Event.interval => handleInterval now s

/-! ### Client-side chunked image transfer (`src/unnamed/part_001`) -/

/-- 50KB chunk size of `sendImageInChunks`. -/
def MAX_CHUNK_SIZE : Nat := 50 * 1024

/-- What the client emits for one image: either a single `pasteImage` (small
payload) or a sequence of `imageChunk` messages with placement metadata on
chunk 0 only. -/
inductive ClientMsg
  | pasteImageMsg (img : ImageRec)
  | imageChunkMsg (c : ChunkMsg)
  deriving DecidableEq

/-- `sendImageInChunks(imageData, roomCode)` of the client: split the encoded
payload into `ceil(length / MAX_CHUNK_SIZE)` substrings. -/
def sendImageInChunks (img : ImageRec) : List ClientMsg :=
  let str := img.imageData
  let totalChunks := (str.length + MAX_CHUNK_SIZE - 1) / MAX_CHUNK_SIZE
  if totalChunks = 1 then [ClientMsg.pasteImageMsg img]
  else (List.range totalChunks).map (fun i =>
    ClientMsg.imageChunkMsg
      { chunkIndex := i, totalChunks := totalChunks,
        chunk := ((str.drop (i * MAX_CHUNK_SIZE)).take MAX_CHUNK_SIZE),
        userId := img.userId, timestamp := img.timestamp,
        meta := if i = 0 then
            some { x := img.x, y := img.y, width := img.width, height := img.height }
          else none })

/-- Pending reassembly session of the client's `imageChunks[timestamp]`
object: a sparse chunk array, the metadata captured from chunk 0, and the
`received` counter. -/
structure ChunkSession where
  chunks : List (Option String)
  meta : Option ChunkMeta
  received : Nat
  deriving DecidableEq

/-- A completed reassembly: `chunks.join('')` plus the session metadata. -/
structure Reassembled where
  imageData : String
  meta : Option ChunkMeta
  timestamp : Nat
  userId : String
  deriving DecidableEq

/-- The client's `socket.on('imageChunk')` receiver.  The session object is
(re)created only when `chunkIndex === 0` arrives; a chunk for which no
session exists is dropped by the `if (imageChunks[timestamp])` guard.  When
`received` reaches `totalChunks` the chunk array is joined in index order
(`join('')` turns missing slots into the empty string) and the session is
deleted. -/
def processChunk (selfId : String) (st : List (Nat × ChunkSession)) (d : ChunkMsg) :
    List (Nat × ChunkSession) × Option Reassembled :=
  if d.userId = selfId then (st, none)
  else
    let st1 := if d.chunkIndex = 0 then
        aupdate st d.timestamp
          { chunks := List.replicate d.totalChunks none, meta := d.meta, received := 0 }
      else st
    match alookup st1 d.timestamp with
    | none => (st1, none)
    | some sess =>
        let sess1 : ChunkSession :=
          { sess with chunks := sess.chunks.set d.chunkIndex (some d.chunk),
                      received := sess.received + 1 }
        if sess1.received = d.totalChunks then
          let full := String.join (sess1.chunks.map (fun c => c.getD ""))
          (aerase st1 d.timestamp,
           some { imageData := full, meta := sess1.meta,
                  timestamp := d.timestamp, userId := d.userId })
        else (aupdate st1 d.timestamp sess1, none)

/-- Deliver a list of chunk messages to the receiver in order, collecting
every completed image. -/
def runChunks (selfId : String) :
    List (Nat × ChunkSession) → List ChunkMsg →
      List (Nat × ChunkSession) × List Reassembled
  | st, [] => (st, [])
  | st, d :: rest =>
      let p := processChunk selfId st d
      let q := runChunks selfId p.fst rest
      (q.fst, (match p.snd with | some r => [r] | none => []) ++ q.snd)

/-! ### The room-code generation loop -/

/-- Truthiness of `getRoomInfo` for the existence re-check inside
`createUniqueRoomCode` (the caching side effect of `getRoomInfo` does not
change which codes exist, so the check is pure). -/
def roomExistsB (s : ServerState) (code : String) : Bool :=
  (alookup s.rooms code).isSome ||
    (s.redisAvailable && (alookup s.redisRooms code).isSome)

/-- The `while (exists)` loop of `createUniqueRoomCode`, with the stream of
`Math.random` samples made explicit (`smp k` is the k-th sampled code) and a
fuel bound marking how many iterations we observe: `none` means the loop is
still running after `fuel` iterations.  The source contains no retry bound
and no error path: its only exit is finding an unused code. -/
def genLoop (smp : Nat → String) (s : ServerState) : Nat → Nat → Option String
  | _, 0 => none
  | k, fuel + 1 =>
      let code := smp k
      if roomExistsB s code then genLoop smp s (k + 1) fuel else some code

/-- The loop never terminates, however many iterations are observed. -/
def genLoopStuck (smp : Nat → String) (s : ServerState) : Prop :=
  ∀ k fuel, genLoop smp s k fuel = none

/-! ### Concrete scenario states -/

/-- The freshly started server: no rooms, no connections, store down (the
development configuration never connects to Redis). -/
def stEmpty : ServerState :=
  { rooms := [], redisRooms := [], redisPoints := [], redisImages := [],
    redisAvailable := false, adapter := [], currentRoom := [],
    userRooms := [], headerCreator := [] }

/-- Room `482913` created by socket `A`, with drawing turned off by the
creator. -/
def roomDisabled : RoomInfo :=
  { createdAt := 0, lastActive := 0, users := 2, creatorId := some "A",
    drawingEnabled := DrawFlag.boolVal false }

/-- Room `482913` created by socket `A`, drawing enabled. -/
def roomEnabled : RoomInfo :=
  { createdAt := 0, lastActive := 0, users := 2, creatorId := some "A",
    drawingEnabled := DrawFlag.boolVal true }

/-- The stroke of the end-to-end scenario in the specification. -/
def strokeW : Stroke :=
  { startX := 0, startY := 0, endX := 10, endY := 10, color := "#000",
    size := 2, tool := "draw" }

/-- Store up, sockets `A` (creator) and `B` joined to room `482913`,
drawing disabled. -/
def stDisabled : ServerState :=
  { rooms := [("482913", roomDisabled)], redisRooms := [], redisPoints := [],
    redisImages := [], redisAvailable := true,
    adapter := [("482913", ["A", "B"])],
    currentRoom := [("A", "482913"), ("B", "482913")],
    userRooms := [("A", "482913"), ("B", "482913")], headerCreator := [] }

/-- Store down, sockets `A` (creator) and `B` joined to room `482913`,
drawing enabled. -/
def stStoreDown : ServerState :=
  { rooms := [("482913", roomEnabled)], redisRooms := [], redisPoints := [],
    redisImages := [], redisAvailable := false,
    adapter := [("482913", ["A", "B"])],
    currentRoom := [("A", "482913"), ("B", "482913")],
    userRooms := [("A", "482913"), ("B", "482913")], headerCreator := [] }

/-- Store up, socket `A` (creator) alone in room `482913`. -/
def stChunkRoom : ServerState :=
  { rooms := [("482913", roomEnabled)], redisRooms := [], redisPoints := [],
    redisImages := [], redisAvailable := true,
    adapter := [("482913", ["A"])],
    currentRoom := [("A", "482913")],
    userRooms := [("A", "482913")], headerCreator := [] }

/-- The record the `GET /room/:roomCode` route materialises: neither
`creatorId` nor `drawingEnabled` is present. -/
def roomPageMade : RoomInfo :=
  { createdAt := 1, lastActive := 1, users := 1, creatorId := none,
    drawingEnabled := DrawFlag.undef }

/-- Store up, socket `B` joined to the page-created room `777777`. -/
def stPageRoom : ServerState :=
  { rooms := [("777777", roomPageMade)], redisRooms := [], redisPoints := [],
    redisImages := [], redisAvailable := true,
    adapter := [("777777", ["B"])],
    currentRoom := [("B", "777777")],
    userRooms := [("B", "777777")], headerCreator := [] }

/-- A `pasteImage` payload. -/
def imgIn0 : ImageIn :=
  { imageData := "data:image/jpeg;base64,AAAA", x := 1, y := 2, width := 3,
    height := 4, timestamp := some 7, userId := some "A" }

/-- Placement metadata used by the chunk-transfer scenarios. -/
def metaX : ChunkMeta := { x := 5, y := 6, width := 7, height := 8 }

/-- Chunk `i` of a three-chunk transfer from user `A` at timestamp 7,
metadata on chunk 0 only, as `sendImageInChunks` builds them. -/
def cmsg (i : Nat) (payload : String) : ChunkMsg :=
  { chunkIndex := i, totalChunks := 3, chunk := payload, userId := "A",
    timestamp := 7, meta := if i = 0 then some metaX else none }

/-- A server state whose only room is code `123456`: the constant sampler
hitting it keeps `createUniqueRoomCode` looping. -/
def stOneRoom : ServerState :=
  { rooms := [("123456", roomEnabled)], redisRooms := [], redisPoints := [],
    redisImages := [], redisAvailable := false, adapter := [],
    currentRoom := [], userRooms := [], headerCreator := [] }

/-- A sampler that always draws the occupied code. -/
def constSample : Nat → String := fun _ => "123456"

/-- A sampler whose first draw collides and whose second is free. -/
def freeSecondSample : Nat → String :=
  fun i => if i = 0 then "123456" else "999999"

/-- Empty room whose `lastActive` lies at instant 0; at `now = 3660000`
(61 minutes later) it is past the one-hour eviction threshold, at
`now = 3540000` (59 minutes) it is not. -/
def roomIdle : RoomInfo :=
  { createdAt := 0, lastActive := 0, users := 0, creatorId := some "A",
    drawingEnabled := DrawFlag.boolVal true }

/-- Store up: the idle room and its stroke/image lists are all present. -/
def stSweepUp : ServerState :=
  { rooms := [("900001", roomIdle)],
    redisRooms := [("900001", { createdAt := some 0, lastActive := some 0,
                                users := some 0, creatorId := some "A",
                                drawingEnabled := some "true" })],
    redisPoints := [("900001", [strokeW])],
    redisImages := [("900001", [normalizeImage 0 "A" imgIn0])],
    redisAvailable := true, adapter := [], currentRoom := [],
    userRooms := [], headerCreator := [] }

/-- Same registry contents with the persistent store unavailable. -/
def stSweepDown : ServerState :=
  { stSweepUp with redisAvailable := false }

/-- `roomDisabled` after the creator re-enables drawing. -/
def roomToggledOn : RoomInfo :=
  { roomDisabled with drawingEnabled := DrawFlag.boolVal true }

/-- Recogniser for `loadImages` notifications. -/
def isLoadImages : Emission → Bool
  | Emission.loadImages _ _ => true
  | _ => false

/-- State after `A` has pushed all three chunks of a chunked image transfer
through the server. -/
def stAfterChunks : ServerState :=
  (handleImageChunk
    ((handleImageChunk
      ((handleImageChunk stChunkRoom "A" (cmsg 0 "aa")).fst)
      "A" (cmsg 1 "bb")).fst)
    "A" (cmsg 2 "cc")).fst

/-! ### Predicates used by the registry invariants -/

/-- Every room present both before and after keeps its `creatorId`. -/
def CreatorStable (s s' : ServerState) : Prop :=
  ∀ code r r', alookup s.rooms code = some r →
    alookup s'.rooms code = some r' → r'.creatorId = r.creatorId

/-- Every room present before is still present with the same `creatorId`. -/
def CreatorMono (s s' : ServerState) : Prop :=
  ∀ code r, alookup s.rooms code = some r →
    ∃ r', alookup s'.rooms code = some r' ∧ r'.creatorId = r.creatorId

/-- The registry only lost entries: whatever is found afterwards was already
there, unchanged. -/
def ShrinkOnly (s s' : ServerState) : Prop :=
  ∀ code r', alookup s'.rooms code = some r' → alookup s.rooms code = some r'

/-- The member counts carried by client-facing notifications: `roomJoined`,
`userJoined`, `userLeft` and `userCountUpdated` each report a `(room,
count)` pair. -/
def countEmissions : List Emission → List (String × Nat)
  | [] => []
  | Emission.roomJoined _ code users _ _ :: rest => (code, users) :: countEmissions rest
  | Emission.userJoined code _ users :: rest => (code, users) :: countEmissions rest
  | Emission.userLeftCount code _ users :: rest => (code, users) :: countEmissions rest
  | Emission.userCountUpdated code users :: rest => (code, users) :: countEmissions rest
  | _ :: rest => countEmissions rest

/-! ### Association-map lemmas -/

theorem alookup_aupdate_self {κ α : Type} [DecidableEq κ]
    (l : List (κ × α)) (k : κ) (v : α) : alookup (aupdate l k v) k = some v := by
  induction l with
  | nil => simp [aupdate, alookup]
  | cons hd tl ih =>
      obtain ⟨k', w⟩ := hd
      by_cases h : k' = k
      · simp [aupdate, alookup, h]
      · simp [aupdate, alookup, h, ih]

theorem alookup_aupdate_ne {κ α : Type} [DecidableEq κ]
    (l : List (κ × α)) (k k' : κ) (v : α) (h : k' ≠ k) :
    alookup (aupdate l k v) k' = alookup l k' := by
  induction l with
  | nil => simp [aupdate, alookup, Ne.symm h]
  | cons hd tl ih =>
      obtain ⟨k₀, w⟩ := hd
      by_cases h0 : k₀ = k
      · subst h0
        simp [aupdate, alookup, Ne.symm h]
      · simp [aupdate, alookup, h0, ih]

theorem alookup_aerase_self {κ α : Type} [DecidableEq κ]
    (l : List (κ × α)) (k : κ) : alookup (aerase l k) k = none := by
  induction l with
  | nil => simp [aerase, alookup]
  | cons hd tl ih =>
      obtain ⟨k₀, w⟩ := hd
      by_cases h0 : k₀ = k
      · simp [aerase, h0, ih]
      · simp [aerase, alookup, h0, ih]

theorem alookup_aerase_ne {κ α : Type} [DecidableEq κ]
    (l : List (κ × α)) (k k' : κ) (h : k' ≠ k) :
    alookup (aerase l k) k' = alookup l k' := by
  induction l with
  | nil => simp [aerase]
  | cons hd tl ih =>
      obtain ⟨k₀, w⟩ := hd
      by_cases h0 : k₀ = k
      · subst h0
        simp [aerase, alookup, Ne.symm h, ih]
      · simp [aerase, alookup, h0, ih]

/-! ### C1: the stroke permission gate -/

/-- C1: with a joined sender and an existing room record, a stroke arriving
while `drawingEnabled` is (boolean) `false` from a sender other than the
creator leaves the state untouched and emits nothing — no log append, no
broadcast, no error; the identical stroke from the creator (or with drawing
enabled) is relayed to the rest of the room and, with the store up, appended
to the room's stroke list. -/
theorem draw_permission_gate (s : ServerState) (sid code : String) (data : Stroke)
    (roomInfo : RoomInfo)
    (hcur : alookup s.currentRoom sid = some code)
    (hroom : alookup s.rooms code = some roomInfo) :
    (roomInfo.drawingEnabled = DrawFlag.boolVal false → roomInfo.creatorId ≠ some sid →
       handleDraw s sid data = (s, [])) ∧
    ((roomInfo.creatorId = some sid ∨ roomInfo.drawingEnabled = DrawFlag.boolVal true) →
       (handleDraw s sid data).snd = [Emission.drawRelay code sid data] ∧
       (s.redisAvailable = true →
          alookup (handleDraw s sid data).fst.redisPoints code =
            some (((alookup s.redisPoints code).getD []) ++ [data]))) := by
  constructor
  · intro hdis hnc
    simp [handleDraw, hcur, hroom, hdis, hnc]
  · intro hacc
    have hcond : ¬(roomInfo.drawingEnabled = DrawFlag.boolVal false ∧
        roomInfo.creatorId ≠ some sid) := by
      rcases hacc with h1 | h2
      · exact fun hc => hc.2 h1
      · intro hc
        rw [h2] at hc
        simpa using hc.1
    refine ⟨by simp [handleDraw, hcur, hroom, hcond], ?_⟩
    intro hav
    simp [handleDraw, hcur, hroom, hcond, saveDrawingPoint, hav, alookup_aupdate_self]

/-- Witness for `draw_permission_gate` at the scenario state: `B` is joined
to room `482913` whose record is `roomDisabled`. -/
theorem draw_permission_gate_witness :
    alookup stDisabled.currentRoom "B" = some "482913" ∧
    alookup stDisabled.rooms "482913" = some roomDisabled ∧
    ((roomDisabled.drawingEnabled = DrawFlag.boolVal false →
        roomDisabled.creatorId ≠ some "B" →
        handleDraw stDisabled "B" strokeW = (stDisabled, [])) ∧
     ((roomDisabled.creatorId = some "B" ∨
         roomDisabled.drawingEnabled = DrawFlag.boolVal true) →
        (handleDraw stDisabled "B" strokeW).snd =
          [Emission.drawRelay "482913" "B" strokeW] ∧
        (stDisabled.redisAvailable = true →
           alookup (handleDraw stDisabled "B" strokeW).fst.redisPoints "482913" =
             some (((alookup stDisabled.redisPoints "482913").getD []) ++ [strokeW])))) :=
  ⟨by decide, by decide,
   draw_permission_gate stDisabled "B" "482913" strokeW roomDisabled
     (by decide) (by decide)⟩

/-! ### C10: rooms without a `drawingEnabled` field accept every stroke -/

/-- C10: the `GET /room/:roomCode` creation path materialises a record with
no `drawingEnabled` field (`DrawFlag.undef`), and the draw handler drops a
stroke only when the field is strictly the boolean `false`; hence in such a
room every member's stroke is relayed and, with the store up, persisted,
creator or not. -/
theorem missing_drawing_flag_accepts :
    (∀ now s code, alookup s.rooms code = none →
       (alookup (handleRoomPage now s code).fst.rooms code).map
           RoomInfo.drawingEnabled = some DrawFlag.undef) ∧
    (∀ s sid code roomInfo data,
       alookup s.currentRoom sid = some code →
       alookup s.rooms code = some roomInfo →
       roomInfo.drawingEnabled ≠ DrawFlag.boolVal false →
       (handleDraw s sid data).snd = [Emission.drawRelay code sid data] ∧
       (s.redisAvailable = true →
          alookup (handleDraw s sid data).fst.redisPoints code =
            some (((alookup s.redisPoints code).getD []) ++ [data]))) := by
  constructor
  · intro now s code hnone
    by_cases hav : s.redisAvailable
    · simp [handleRoomPage, hnone, hav, alookup_aupdate_self]
    · simp [handleRoomPage, hnone, hav, alookup_aupdate_self]
  · intro s sid code roomInfo data hcur hroom hflag
    have hcond : ¬(roomInfo.drawingEnabled = DrawFlag.boolVal false ∧
        roomInfo.creatorId ≠ some sid) := fun hc => hflag hc.1
    refine ⟨by simp [handleDraw, hcur, hroom, hcond], ?_⟩
    intro hav
    simp [handleDraw, hcur, hroom, hcond, saveDrawingPoint, hav, alookup_aupdate_self]

/-- Witness for `missing_drawing_flag_accepts`: the page route creates room
`777777` without the flag; in a state where `B` has joined that room, `B`'s
stroke is relayed and appended even though `B` is not the creator. -/
theorem missing_drawing_flag_accepts_witness :
    (alookup stEmpty.rooms "777777" = none ∧
     (alookup (handleRoomPage 1 stEmpty "777777").fst.rooms "777777").map
         RoomInfo.drawingEnabled = some DrawFlag.undef) ∧
    (alookup stPageRoom.currentRoom "B" = some "777777" ∧
     alookup stPageRoom.rooms "777777" = some roomPageMade ∧
     roomPageMade.drawingEnabled ≠ DrawFlag.boolVal false ∧
     ((handleDraw stPageRoom "B" strokeW).snd =
        [Emission.drawRelay "777777" "B" strokeW] ∧
      (stPageRoom.redisAvailable = true →
         alookup (handleDraw stPageRoom "B" strokeW).fst.redisPoints "777777" =
           some (((alookup stPageRoom.redisPoints "777777").getD []) ++ [strokeW])))) :=
  ⟨⟨by decide, missing_drawing_flag_accepts.1 1 stEmpty "777777" (by decide)⟩,
   by decide, by decide, by decide,
   missing_drawing_flag_accepts.2 stPageRoom "B" "777777" roomPageMade strokeW
     (by decide) (by decide) (by decide)⟩

/-! ### C8: operations arriving before a join -/

/-- C8 counterexample: on a connection that has joined no room, `draw`,
`clearCanvas` and `requestDrawingData` each return silently — contrary to
the claim, no explicit error event is surfaced to the connection. -/
theorem not_joined_silent_counterexample :
    handleDraw stEmpty "Z" strokeW = (stEmpty, []) ∧
    handleClearCanvas stEmpty "Z" = (stEmpty, []) ∧
    handleRequestDrawingData stEmpty "Z" = (stEmpty, []) := by
  decide

/-- C8 (amended): every room-scoped operation from a connection that has not
joined a room changes no state and cannot crash; `requestImageData`,
`imageChunk`, `pasteImage` and `toggleDrawing` surface an explicit error
event, while `draw`, `clearCanvas` and `requestDrawingData` return
silently. -/
theorem not_joined_guards (now : Nat) (s : ServerState) (sid : String)
    (data : Stroke) (c : ChunkMsg) (img : ImageIn) (b : Bool)
    (h : alookup s.currentRoom sid = none) :
    handleDraw s sid data = (s, []) ∧
    handleClearCanvas s sid = (s, []) ∧
    handleRequestDrawingData s sid = (s, []) ∧
    handleRequestImageData s sid = (s, [Emission.errorEvt sid]) ∧
    handleImageChunk s sid c = (s, [Emission.errorEvt sid]) ∧
    handlePasteImage now s sid img = (s, [Emission.errorEvt sid]) ∧
    handleToggleDrawing s sid b = (s, [Emission.errorEvt sid]) := by
  refine ⟨?_, ?_, ?_, ?_, ?_, ?_, ?_⟩ <;>
    simp [handleDraw, handleClearCanvas, handleRequestDrawingData,
      handleRequestImageData, handleImageChunk, handlePasteImage,
      handleToggleDrawing, h]

/-- Witness for `not_joined_guards` on the fresh server state. -/
theorem not_joined_guards_witness :
    alookup stEmpty.currentRoom "Z" = none ∧
    (handleDraw stEmpty "Z" strokeW = (stEmpty, []) ∧
     handleClearCanvas stEmpty "Z" = (stEmpty, []) ∧
     handleRequestDrawingData stEmpty "Z" = (stEmpty, []) ∧
     handleRequestImageData stEmpty "Z" = (stEmpty, [Emission.errorEvt "Z"]) ∧
     handleImageChunk stEmpty "Z" (cmsg 0 "aa") = (stEmpty, [Emission.errorEvt "Z"]) ∧
     handlePasteImage 3 stEmpty "Z" imgIn0 = (stEmpty, [Emission.errorEvt "Z"]) ∧
     handleToggleDrawing stEmpty "Z" false = (stEmpty, [Emission.errorEvt "Z"])) :=
  ⟨by decide,
   not_joined_guards 3 stEmpty "Z" strokeW (cmsg 0 "aa") imgIn0 false (by decide)⟩

/-! ### C5: store unavailability -/

/-- C5 counterexample: with the store unavailable, a `pasteImage` from a
joined member is answered with an explicit error event and is not broadcast
— store unavailability is surfaced, and the user-facing effect does not
complete. -/
theorem paste_store_down_counterexample :
    handlePasteImage 9 stStoreDown "A" imgIn0 =
      (stStoreDown, [Emission.errorEvt "A"]) := by
  decide

/-- C5 (amended): with the store unavailable, stroke submission still
broadcasts (persistence silently skipped) and the history requests return
empty collections without error; `pasteImage`, however, surfaces the failed
persistence as an error event to the sender and skips the broadcast. -/
theorem store_unavailable_degradation (now : Nat) (s : ServerState)
    (sid code : String) (roomInfo : RoomInfo) (data : Stroke) (img : ImageIn)
    (hcur : alookup s.currentRoom sid = some code)
    (hroom : alookup s.rooms code = some roomInfo)
    (hgate : ¬(roomInfo.drawingEnabled = DrawFlag.boolVal false ∧
        roomInfo.creatorId ≠ some sid))
    (hun : s.redisAvailable = false) :
    handleDraw s sid data = (s, [Emission.drawRelay code sid data]) ∧
    handleRequestDrawingData s sid = (s, [Emission.loadDrawing sid []]) ∧
    handleRequestImageData s sid = (s, [Emission.loadImages sid []]) ∧
    handlePasteImage now s sid img = (s, [Emission.errorEvt sid]) := by
  refine ⟨?_, ?_, ?_, ?_⟩
  · simp [handleDraw, hcur, hroom, hgate, saveDrawingPoint, hun]
  · simp [handleRequestDrawingData, hcur, getDrawingPoints, hun]
  · simp [handleRequestImageData, hcur, getImages, hun]
  · simp [handlePasteImage, hcur, saveImage, hun]

/-- Witness for `store_unavailable_degradation` with member `B` in the
store-down room. -/
theorem store_unavailable_degradation_witness :
    alookup stStoreDown.currentRoom "B" = some "482913" ∧
    alookup stStoreDown.rooms "482913" = some roomEnabled ∧
    (¬(roomEnabled.drawingEnabled = DrawFlag.boolVal false ∧
        roomEnabled.creatorId ≠ some "B")) ∧
    stStoreDown.redisAvailable = false ∧
    (handleDraw stStoreDown "B" strokeW =
        (stStoreDown, [Emission.drawRelay "482913" "B" strokeW]) ∧
     handleRequestDrawingData stStoreDown "B" =
        (stStoreDown, [Emission.loadDrawing "B" []]) ∧
     handleRequestImageData stStoreDown "B" =
        (stStoreDown, [Emission.loadImages "B" []]) ∧
     handlePasteImage 9 stStoreDown "B" imgIn0 =
        (stStoreDown, [Emission.errorEvt "B"])) :=
  ⟨by decide, by decide, by decide, by decide,
   store_unavailable_degradation 9 stStoreDown "B" "482913" roomEnabled strokeW imgIn0
     (by decide) (by decide) (by decide) (by decide)⟩

/-! ### C9: the unique-room-code generation loop -/

/-- C9 counterexample: when every sampled candidate code is taken, the
`while (exists)` loop of `createUniqueRoomCode` is still running after any
number of iterations — there is no retry limit and no fatal-error exit. -/
theorem room_code_loop_counterexample : genLoopStuck constSample stOneRoom := by
  intro k fuel
  induction fuel generalizing k with
  | zero => rfl
  | succ n ih =>
      simpa [genLoop, constSample, roomExistsB, stOneRoom, alookup] using ih (k + 1)

/-- C9 (amended): the generator retries without any bound; it returns only a
code whose existence re-check came back empty, and it terminates exactly
when the sample stream reaches an unused code (here: an unused sample at
offset `n` guarantees termination once more than `n` iterations are
allowed). -/
theorem room_code_generator_unbounded :
    (∀ smp s k fuel c, genLoop smp s k fuel = some c → roomExistsB s c = false) ∧
    (∀ smp s k n, roomExistsB s (smp (k + n)) = false →
       ∀ fuel, n < fuel → ∃ c, genLoop smp s k fuel = some c) := by
  constructor
  · intro smp s k fuel c
    induction fuel generalizing k with
    | zero => intro h; cases h
    | succ m ih =>
        intro h
        by_cases he : roomExistsB s (smp k)
        · exact ih (k + 1) (by simpa [genLoop, he] using h)
        · have hc : c = smp k := by
            have := h
            simp [genLoop, he] at this
            exact this.symm
          subst hc
          simpa using he
  · intro smp s k n
    induction n generalizing k with
    | zero =>
        intro hfree fuel hfuel
        obtain ⟨m, rfl⟩ := Nat.exists_eq_succ_of_ne_zero (Nat.pos_iff_ne_zero.mp hfuel)
        refine ⟨smp k, ?_⟩
        simpa [genLoop] using by simp [genLoop, hfree] at *; simp [hfree]
    | succ p ih =>
        intro hfree fuel hfuel
        obtain ⟨m, rfl⟩ := Nat.exists_eq_succ_of_ne_zero
          (Nat.pos_iff_ne_zero.mp (Nat.lt_of_le_of_lt (Nat.zero_le _) hfuel))
        by_cases he : roomExistsB s (smp k)
        · have hm : p < m := Nat.lt_of_succ_lt_succ hfuel
          have hfree1 : roomExistsB s (smp ((k + 1) + p)) = false := by
            have : (k + 1) + p = k + (p + 1) := by omega
            rw [this]
            exact hfree
          obtain ⟨c, hc⟩ := ih (k + 1) hfree1 m hm
          exact ⟨c, by simpa [genLoop, he] using hc⟩
        · exact ⟨smp k, by simp [genLoop, he]⟩

/-- Witness for `room_code_generator_unbounded`: with one occupied room and
a sampler whose second draw is free, two iterations suffice, and the code
the loop returns is indeed unused. -/
theorem room_code_generator_unbounded_witness :
    (genLoop freeSecondSample stOneRoom 0 2 = some "999999" ∧
     roomExistsB stOneRoom "999999" = false) ∧
    (roomExistsB stOneRoom (freeSecondSample (0 + 1)) = false ∧
     ∃ c, genLoop freeSecondSample stOneRoom 0 2 = some c) :=
  ⟨⟨by decide,
    room_code_generator_unbounded.1 freeSecondSample stOneRoom 0 2 "999999" (by decide)⟩,
   ⟨by decide,
    room_code_generator_unbounded.2 freeSecondSample stOneRoom 0 1 (by decide) 2
      (by decide)⟩⟩

/-! ### C4: chunk arrival order -/

/-- C4 counterexample: the same three chunks reassemble to the index-ordered
concatenation when delivered (0,1,2) but produce nothing at all when
delivered (2,0,1) — chunk 2 arrives before the session object exists and is
dropped, so reassembly is not arrival-order independent. -/
theorem chunk_order_counterexample :
    (runChunks "me" [] [cmsg 0 "aa", cmsg 1 "bb", cmsg 2 "cc"]).snd.map
        Reassembled.imageData = ["aabbcc"] ∧
    (runChunks "me" [] [cmsg 2 "cc", cmsg 0 "aa", cmsg 1 "bb"]).snd = [] := by
  decide

/-- C4 (amended): among arrival orders in which chunk 0 comes first, a
three-chunk transfer reassembles order-independently to the index-ordered
concatenation of the chunk payloads: orders (0,1,2) and (0,2,1) give the
same single reassembled image, whose payload is chunk0 ++ chunk1 ++
chunk2. -/
theorem chunk_reassembly_zero_first (a b c uid self : String) (ts : Nat)
    (m : Option ChunkMeta) (hne : uid ≠ self) :
    (runChunks self []
        [⟨0, 3, a, uid, ts, m⟩, ⟨1, 3, b, uid, ts, none⟩,
         ⟨2, 3, c, uid, ts, none⟩]).snd =
      (runChunks self []
        [⟨0, 3, a, uid, ts, m⟩, ⟨2, 3, c, uid, ts, none⟩,
         ⟨1, 3, b, uid, ts, none⟩]).snd ∧
    (runChunks self []
        [⟨0, 3, a, uid, ts, m⟩, ⟨1, 3, b, uid, ts, none⟩,
         ⟨2, 3, c, uid, ts, none⟩]).snd.map Reassembled.imageData =
      [a ++ b ++ c] := by
  constructor
  · simp [runChunks, processChunk, hne, aupdate, alookup, aerase, List.replicate,
      String.join]
  · simp [runChunks, processChunk, hne, aupdate, alookup, aerase, List.replicate,
      String.join]

/-- Witness for `chunk_reassembly_zero_first` at concrete payloads. -/
theorem chunk_reassembly_zero_first_witness :
    ("A" : String) ≠ "me" ∧
    ((runChunks "me" []
        [⟨0, 3, "aa", "A", 7, some metaX⟩, ⟨1, 3, "bb", "A", 7, none⟩,
         ⟨2, 3, "cc", "A", 7, none⟩]).snd =
      (runChunks "me" []
        [⟨0, 3, "aa", "A", 7, some metaX⟩, ⟨2, 3, "cc", "A", 7, none⟩,
         ⟨1, 3, "bb", "A", 7, none⟩]).snd ∧
     (runChunks "me" []
        [⟨0, 3, "aa", "A", 7, some metaX⟩, ⟨1, 3, "bb", "A", 7, none⟩,
         ⟨2, 3, "cc", "A", 7, none⟩]).snd.map Reassembled.imageData =
      ["aa" ++ "bb" ++ "cc"]) :=
  ⟨by decide,
   chunk_reassembly_zero_first "aa" "bb" "cc" "A" "me" 7 (some metaX) (by decide)⟩

/-! ### C7: the inactive-room sweep -/

/-- C7: with the store up, the sweep deletes an empty room idle for 61
minutes from the registry and all three store keys, and retains the same
room when only 59 minutes have passed; but with the store unavailable the
61-minute room is NOT deleted — the in-memory delete sits after the store
deletes inside the `try`, so the thrown store call skips it (divergence from
the claim's "whether or not the persistent store is available"). -/
theorem inactive_room_eviction_divergence :
    (alookup (handleInterval 3660000 stSweepUp).fst.rooms "900001" = none ∧
     alookup (handleInterval 3660000 stSweepUp).fst.redisRooms "900001" = none ∧
     alookup (handleInterval 3660000 stSweepUp).fst.redisPoints "900001" = none ∧
     alookup (handleInterval 3660000 stSweepUp).fst.redisImages "900001" = none) ∧
    alookup (handleInterval 3540000 stSweepUp).fst.rooms "900001" = some roomIdle ∧
    (alookup (handleInterval 3660000 stSweepDown).fst.rooms "900001" = some roomIdle ∧
     handleInterval 3660000 stSweepDown = (stSweepDown, [])) := by
  decide

/-! ### C3: chunked transfers and the image replay -/

/-- C3: a complete chunked image transfer leaves the server state untouched
— the three chunks are only relayed, the room's stored image sequence stays
empty — so a member who joins afterwards receives no `loadImages` at all
(the join emits it only for a non-empty list) and `getImages` replays
nothing, although the store is up throughout. -/
theorem chunked_image_not_replayed :
    (handleImageChunk stChunkRoom "A" (cmsg 0 "aa")).snd =
      [Emission.imageChunkRelay "482913" "A" (cmsg 0 "aa")] ∧
    stAfterChunks = stChunkRoom ∧
    alookup stAfterChunks.redisImages "482913" = none ∧
    (handleJoinRoom 2000 stAfterChunks "B" "482913").snd.filter isLoadImages = [] ∧
    getImages stAfterChunks "482913" = [] := by
  decide

/-! ### C2: creator-binding preservation machinery -/

theorem creatorMono_refl (s : ServerState) : CreatorMono s s :=
  fun _ r h => ⟨r, h, rfl⟩

theorem creatorMono_of_rooms_eq {s s' : ServerState} (h : s'.rooms = s.rooms) :
    CreatorMono s s' := fun _ r hr => ⟨r, by rw [h]; exact hr, rfl⟩

theorem creatorMono_trans {a b c : ServerState} (h1 : CreatorMono a b)
    (h2 : CreatorMono b c) : CreatorMono a c := by
  intro code r hr
  obtain ⟨r1, hr1, e1⟩ := h1 code r hr
  obtain ⟨r2, hr2, e2⟩ := h2 code r1 hr1
  exact ⟨r2, hr2, e2.trans e1⟩

theorem creatorStable_of_mono {s s' : ServerState} (h : CreatorMono s s') :
    CreatorStable s s' := by
  intro code r r' hr hr'
  obtain ⟨r2, hr2, e2⟩ := h code r hr
  have hrr : r' = r2 := by
    rw [hr'] at hr2
    exact Option.some_inj.mp hr2
  rw [hrr]
  exact e2

theorem shrinkOnly_refl (s : ServerState) : ShrinkOnly s s := fun _ _ h => h

theorem creatorStable_of_mono_shrink {a b c : ServerState}
    (h1 : CreatorMono a b) (h2 : ShrinkOnly b c) : CreatorStable a c := by
  intro code r r' hr hr'
  have hb := h2 code r' hr'
  obtain ⟨r2, hr2, e2⟩ := h1 code r hr
  have hrr : r' = r2 := by
    rw [hb] at hr2
    exact Option.some_inj.mp hr2
  rw [hrr]
  exact e2

theorem creatorMono_update {s s' : ServerState} {code : String} {r : RoomInfo}
    (hrooms : s'.rooms = aupdate s.rooms code r)
    (hok : ∀ room, alookup s.rooms code = some room → r.creatorId = room.creatorId) :
    CreatorMono s s' := by
  intro c room hc
  by_cases hcc : c = code
  · subst hcc
    refine ⟨r, ?_, hok room hc⟩
    rw [hrooms]
    exact alookup_aupdate_self _ _ _
  · refine ⟨room, ?_, rfl⟩
    rw [hrooms, alookup_aupdate_ne _ _ _ _ hcc]
    exact hc

theorem rooms_adapterJoin (s : ServerState) (sid code : String) :
    (adapterJoin s sid code).rooms = s.rooms := by
  by_cases h : sid ∈ liveSet s code <;> simp [adapterJoin, h]

theorem rooms_adapterLeave (s : ServerState) (sid code : String) :
    (adapterLeave s sid code).rooms = s.rooms := by
  simp only [adapterLeave]
  split <;> rfl

theorem creatorMono_updateRoomInfo (now : Nat) (s : ServerState) (code : String) :
    CreatorMono s (updateRoomInfo now s code).fst := by
  cases h : alookup s.rooms code with
  | none =>
      simp only [updateRoomInfo, h]
      exact creatorMono_refl s
  | some room =>
      by_cases hu : room.users ≠ liveSize s code
      · simp only [updateRoomInfo, h, if_pos hu]
        refine creatorMono_update rfl ?_
        intro room' h'
        rw [h] at h'
        cases h'
        rfl
      · simp only [updateRoomInfo, h, if_neg hu]
        exact creatorMono_refl s

theorem creatorMono_joinLeavePhase (now : Nat) (s : ServerState) (sid : String) :
    CreatorMono s (joinLeavePhase now s sid).fst := by
  cases h : alookup s.currentRoom sid with
  | none =>
      simp only [joinLeavePhase, h]
      exact creatorMono_refl s
  | some prev =>
      simp only [joinLeavePhase, h]
      refine creatorMono_trans (creatorMono_of_rooms_eq (rooms_adapterLeave s sid prev))
        (creatorMono_trans (creatorMono_updateRoomInfo now (adapterLeave s sid prev) prev)
          (creatorMono_of_rooms_eq rfl))

theorem creatorMono_joinCreateRoom (now : Nat) (s : ServerState) (sid code : String)
    (h : alookup s.rooms code = none) :
    CreatorMono s (joinCreateRoom now s sid code).fst := by
  have hrooms : (joinCreateRoom now s sid code).fst.rooms =
      aupdate s.rooms code
        ({ createdAt := now, lastActive := now, users := 0,
           creatorId := some sid, drawingEnabled := DrawFlag.boolVal true }) := by
    by_cases hav : s.redisAvailable <;> simp [joinCreateRoom, hav]
  refine creatorMono_update hrooms ?_
  intro room hr
  rw [h] at hr
  cases hr

theorem creatorMono_joinLookupPhase (now : Nat) (s : ServerState) (sid code : String) :
    CreatorMono s (joinLookupPhase now s sid code).fst := by
  cases h : alookup s.rooms code with
  | some r =>
      simp only [joinLookupPhase, h]
      exact creatorMono_refl s
  | none =>
      by_cases hav : s.redisAvailable
      · cases hh : alookup s.redisRooms code with
        | some hsh =>
            simp only [joinLookupPhase, h, hav, if_true, hh]
            refine creatorMono_update rfl ?_
            intro room hr
            rw [h] at hr
            cases hr
        | none =>
            simp only [joinLookupPhase, h, hav, if_true, hh]
            exact creatorMono_joinCreateRoom now s sid code h
      · simp only [joinLookupPhase, h, hav, if_false]
        exact creatorMono_joinCreateRoom now s sid code h

theorem rooms_joinJoined (s : ServerState) (sid code : String) :
    (joinJoined s sid code).rooms = s.rooms := by
  simp only [joinJoined]
  exact rooms_adapterJoin s sid code

theorem creatorMono_handleJoinRoom (now : Nat) (s : ServerState) (sid code : String) :
    CreatorMono s (handleJoinRoom now s sid code).fst := by
  simp only [handleJoinRoom]
  refine creatorMono_trans (creatorMono_joinLeavePhase now s sid) ?_
  refine creatorMono_trans (creatorMono_joinLookupPhase now _ sid code) ?_
  refine creatorMono_trans (creatorMono_of_rooms_eq (rooms_joinJoined _ sid code)) ?_
  exact creatorMono_updateRoomInfo now _ code

theorem rooms_handleDraw (s : ServerState) (sid : String) (data : Stroke) :
    (handleDraw s sid data).fst.rooms = s.rooms := by
  cases h : alookup s.currentRoom sid with
  | none => simp [handleDraw, h]
  | some code =>
      cases hr : alookup s.rooms code with
      | none => simp [handleDraw, h, hr]
      | some roomInfo =>
          by_cases hc : roomInfo.drawingEnabled = DrawFlag.boolVal false ∧
              roomInfo.creatorId ≠ some sid
          · simp [handleDraw, h, hr, hc]
          · by_cases hav : s.redisAvailable <;>
              simp [handleDraw, h, hr, hc, saveDrawingPoint, hav]

theorem fst_handleImageChunk (s : ServerState) (sid : String) (d : ChunkMsg) :
    (handleImageChunk s sid d).fst = s := by
  cases h : alookup s.currentRoom sid <;> simp [handleImageChunk, h]

theorem rooms_handlePasteImage (now : Nat) (s : ServerState) (sid : String)
    (d : ImageIn) : (handlePasteImage now s sid d).fst.rooms = s.rooms := by
  cases h : alookup s.currentRoom sid with
  | none => simp [handlePasteImage, h]
  | some code =>
      by_cases hav : s.redisAvailable <;>
        simp [handlePasteImage, h, saveImage, hav]

theorem rooms_handleClearCanvas (s : ServerState) (sid : String) :
    (handleClearCanvas s sid).fst.rooms = s.rooms := by
  cases h : alookup s.currentRoom sid with
  | none => simp [handleClearCanvas, h]
  | some code =>
      cases hr : alookup s.rooms code with
      | none => simp [handleClearCanvas, h, hr]
      | some roomInfo =>
          by_cases hic : isCreatorCheck s sid roomInfo
          · by_cases hav : s.redisAvailable <;>
              simp [handleClearCanvas, h, hr, hic, hav]
          · simp [handleClearCanvas, h, hr, hic]

theorem creatorMono_handleToggleDrawing (s : ServerState) (sid : String) (b : Bool) :
    CreatorMono s (handleToggleDrawing s sid b).fst := by
  cases h : alookup s.currentRoom sid with
  | none =>
      simp only [handleToggleDrawing, h]
      exact creatorMono_refl s
  | some code =>
      cases hr : alookup s.rooms code with
      | none =>
          simp only [handleToggleDrawing, h, hr]
          exact creatorMono_refl s
      | some roomInfo =>
          by_cases hic : isCreatorCheck s sid roomInfo
          · have hrooms : (handleToggleDrawing s sid b).fst.rooms =
                aupdate s.rooms code
                  ({ roomInfo with drawingEnabled := DrawFlag.boolVal b }) := by
              by_cases hav : s.redisAvailable <;>
                simp [handleToggleDrawing, h, hr, hic, hav]
            refine creatorMono_update hrooms ?_
            intro room h'
            rw [hr] at h'
            cases h'
            rfl
          · simp only [handleToggleDrawing, h, hr, if_neg hic]
            exact creatorMono_refl s

theorem currentRoom_adapterLeave (s : ServerState) (sid code : String) :
    (adapterLeave s sid code).currentRoom = s.currentRoom := by
  simp only [adapterLeave]
  split <;> rfl

theorem creatorMono_handleDisconnect (now : Nat) (s : ServerState) (sid : String) :
    CreatorMono s (handleDisconnect now s sid).fst := by
  cases h : alookup s.currentRoom sid with
  | none =>
      simp only [handleDisconnect, h]
      exact creatorMono_refl s
  | some code =>
      have key : ∀ t : ServerState, t.rooms = s.rooms →
          CreatorMono s (updateRoomInfo now t code).fst := by
        intro t ht
        exact creatorMono_trans (creatorMono_of_rooms_eq ht)
          (creatorMono_updateRoomInfo now t code)
      simp only [handleDisconnect, h]
      exact key _ (by rw [rooms_adapterLeave])

theorem creatorMono_handleRoomPage (now : Nat) (s : ServerState) (code : String) :
    CreatorMono s (handleRoomPage now s code).fst := by
  cases h : alookup s.rooms code with
  | some r =>
      simp only [handleRoomPage, h]
      exact creatorMono_refl s
  | none =>
      have hrooms : (handleRoomPage now s code).fst.rooms =
          aupdate s.rooms code
            ({ createdAt := now, lastActive := now, users := 0,
               creatorId := none, drawingEnabled := DrawFlag.undef }) := by
        by_cases hav : s.redisAvailable <;> simp [handleRoomPage, h, hav]
      refine creatorMono_update hrooms ?_
      intro room hr
      rw [h] at hr
      cases hr

theorem getRoomInfoM_mono (now : Nat) (s : ServerState) (code : String) :
    CreatorMono s (getRoomInfoM now s code).fst := by
  cases h : alookup s.rooms code with
  | some r =>
      simp only [getRoomInfoM, h]
      exact creatorMono_refl s
  | none =>
      by_cases hav : s.redisAvailable
      · cases hh : alookup s.redisRooms code with
        | some hsh =>
            simp only [getRoomInfoM, h, hav, if_true, hh]
            refine creatorMono_update rfl ?_
            intro room hr
            rw [h] at hr
            cases hr
        | none =>
            simp only [getRoomInfoM, h, hav, if_true, hh]
            exact creatorMono_refl s
      · simp only [getRoomInfoM, h, hav, if_false]
        exact creatorMono_refl s

theorem getRoomInfoM_none (now : Nat) (s : ServerState) (code : String)
    (h : (getRoomInfoM now s code).snd = none) :
    (getRoomInfoM now s code).fst = s ∧ alookup s.rooms code = none := by
  cases hl : alookup s.rooms code with
  | some r =>
      simp only [getRoomInfoM, hl] at h
      cases h
  | none =>
      refine ⟨?_, rfl⟩
      by_cases hav : s.redisAvailable
      · cases hh : alookup s.redisRooms code with
        | some hsh =>
            simp only [getRoomInfoM, hl, hav, if_true, hh] at h
            cases h
        | none => simp [getRoomInfoM, hl, hav, hh]
      · simp [getRoomInfoM, hl, hav]

theorem findUnusedCode_spec (now : Nat) :
    ∀ (cands : List String) (s s1 : ServerState) (code : String),
      findUnusedCode now s cands = some (s1, code) →
      CreatorMono s s1 ∧ alookup s1.rooms code = none := by
  intro cands
  induction cands with
  | nil =>
      intro s s1 code h
      cases h
  | cons c rest ih =>
      intro s s1 code h
      rcases hg : getRoomInfoM now s c with ⟨sg, og⟩
      have hmono : CreatorMono s sg := by
        have hm := getRoomInfoM_mono now s c
        rw [hg] at hm
        exact hm
      cases og with
      | some r =>
          have h' : findUnusedCode now sg rest = some (s1, code) := by
            simpa [findUnusedCode, hg] using h
          obtain ⟨hm2, hn⟩ := ih sg s1 code h'
          exact ⟨creatorMono_trans hmono hm2, hn⟩
      | none =>
          have hne := getRoomInfoM_none now s c (by rw [hg])
          have hp : (sg, c) = (s1, code) := by
            have h2 := h
            simp only [findUnusedCode, hg] at h2
            exact Option.some_inj.mp h2
          have hs2 : sg = s1 := congrArg Prod.fst hp
          have hc2 : c = code := congrArg Prod.snd hp
          refine ⟨hs2 ▸ hmono, ?_⟩
          have hfst : sg = s := by
            rw [hg] at hne
            exact hne.1
          rw [← hs2, hfst, ← hc2]
          rw [hg] at hne
          exact hne.2

theorem creatorMono_handleApiCreateRoom (now : Nat) (s : ServerState)
    (cands : List String) (cid : String) :
    CreatorMono s (handleApiCreateRoom now s cands cid).fst := by
  cases hf : findUnusedCode now s cands with
  | none =>
      simp only [handleApiCreateRoom, hf]
      exact creatorMono_refl s
  | some p =>
      obtain ⟨s1, code⟩ := p
      obtain ⟨hm, hn⟩ := findUnusedCode_spec now cands s s1 code hf
      simp only [handleApiCreateRoom, hf]
      have hrooms : (createRoom now s1 code (some cid)).rooms =
          aupdate s1.rooms code
            ({ createdAt := now, lastActive := now, users := 0,
               creatorId := some cid, drawingEnabled := DrawFlag.boolVal true }) := by
        by_cases hav : s1.redisAvailable <;> simp [createRoom, hav]
      refine creatorMono_trans hm (creatorMono_update hrooms ?_)
      intro room hr
      rw [hn] at hr
      cases hr

theorem creatorMono_reconcileRoom (now : Nat) (acc : ServerState × List Emission)
    (code : String) : CreatorMono acc.fst (reconcileRoom now acc code).fst := by
  cases h : alookup acc.fst.rooms code with
  | none =>
      simp only [reconcileRoom, h]
      exact creatorMono_refl _
  | some room =>
      by_cases hu : room.users ≠ liveSize acc.fst code
      · have hrooms : (reconcileRoom now acc code).fst.rooms =
            aupdate acc.fst.rooms code ({ room with users := liveSize acc.fst code }) := by
          by_cases hav : acc.fst.redisAvailable
          · cases hh : alookup acc.fst.redisRooms code with
            | some hsh => simp [reconcileRoom, h, hu, hav, hh]
            | none => simp [reconcileRoom, h, hu, hav, hh]
          · simp [reconcileRoom, h, hu, hav]
        refine creatorMono_update hrooms ?_
        intro room' h'
        rw [h] at h'
        cases h'
        rfl
      · simp only [reconcileRoom, h, if_neg hu]
        exact creatorMono_refl _

theorem creatorMono_fold_reconcile (now : Nat) :
    ∀ (codes : List String) (acc : ServerState × List Emission),
      CreatorMono acc.fst ((codes.foldl (reconcileRoom now) acc).fst) := by
  intro codes
  induction codes with
  | nil =>
      intro acc
      exact creatorMono_refl _
  | cons c rest ih =>
      intro acc
      simp only [List.foldl_cons]
      exact creatorMono_trans (creatorMono_reconcileRoom now acc c) (ih _)

theorem shrinkOnly_evictRoom (now : Nat) (acc : ServerState × List Emission)
    (code : String) : ShrinkOnly acc.fst (evictRoom now acc code).fst := by
  cases h : alookup acc.fst.rooms code with
  | none =>
      simp only [evictRoom, h]
      exact shrinkOnly_refl _
  | some room =>
      by_cases hcond : room.users ≤ 0 ∧ now - room.lastActive > 60 * 60 * 1000
      · by_cases hav : acc.fst.redisAvailable
        · simp only [evictRoom, h, if_pos hcond, if_pos hav]
          intro c r' hc
          by_cases hcc : c = code
          · subst hcc
            rw [alookup_aerase_self] at hc
            cases hc
          · rwa [alookup_aerase_ne _ _ _ hcc] at hc
        · simp only [evictRoom, h, if_pos hcond, if_neg hav]
          exact shrinkOnly_refl _
      · simp only [evictRoom, h, if_neg hcond]
        exact shrinkOnly_refl _

theorem shrinkOnly_fold_evict (now : Nat) :
    ∀ (codes : List String) (acc : ServerState × List Emission),
      ShrinkOnly acc.fst ((codes.foldl (evictRoom now) acc).fst) := by
  intro codes
  induction codes with
  | nil =>
      intro acc
      exact shrinkOnly_refl _
  | cons c rest ih =>
      intro acc
      simp only [List.foldl_cons]
      intro code r' hr'
      exact shrinkOnly_evictRoom now acc c code r' (ih _ code r' hr')

theorem creatorStable_handleInterval (now : Nat) (s : ServerState) :
    CreatorStable s (handleInterval now s).fst := by
  simp only [handleInterval]
  exact creatorStable_of_mono_shrink
    (creatorMono_fold_reconcile now (s.rooms.map Prod.fst) (s, []))
    (shrinkOnly_fold_evict now _ _)

/-- Every event preserves the creator binding of every room that survives
it. -/
theorem creatorStable_step (now : Nat) (s : ServerState) (e : Event) :
    CreatorStable s (step now s e).fst := by
  cases e with
  | joinRoom sid code =>
      exact creatorStable_of_mono (creatorMono_handleJoinRoom now s sid code)
  | draw sid data =>
      exact creatorStable_of_mono (creatorMono_of_rooms_eq (rooms_handleDraw s sid data))
  | imageChunk sid d =>
      exact creatorStable_of_mono
        (creatorMono_of_rooms_eq (by rw [step, fst_handleImageChunk]))
  | pasteImage sid d =>
      exact creatorStable_of_mono
        (creatorMono_of_rooms_eq (rooms_handlePasteImage now s sid d))
  | clearCanvas sid =>
      exact creatorStable_of_mono
        (creatorMono_of_rooms_eq (rooms_handleClearCanvas s sid))
  | toggleDrawing sid b =>
      exact creatorStable_of_mono (creatorMono_handleToggleDrawing s sid b)
  | requestDrawingData sid =>
      exact creatorStable_of_mono (creatorMono_of_rooms_eq (by
        cases h : alookup s.currentRoom sid <;> simp [step, handleRequestDrawingData, h]))
  | requestImageData sid =>
      exact creatorStable_of_mono (creatorMono_of_rooms_eq (by
        cases h : alookup s.currentRoom sid <;> simp [step, handleRequestImageData, h]))
  | disconnect sid =>
      exact creatorStable_of_mono (creatorMono_handleDisconnect now s sid)
  | apiCreateRoom cands cid =>
      exact creatorStable_of_mono (creatorMono_handleApiCreateRoom now s cands cid)
  | httpRoomPage code =>
      exact creatorStable_of_mono (creatorMono_handleRoomPage now s code)
  | interval =>
      exact creatorStable_handleInterval now s

theorem lookup_none_updateRoomInfo (now : Nat) (s : ServerState) (c code : String)
    (h : alookup s.rooms code = none) :
    alookup (updateRoomInfo now s c).fst.rooms code = none := by
  cases hl : alookup s.rooms c with
  | none => simpa [updateRoomInfo, hl] using h
  | some room =>
      by_cases hu : room.users ≠ liveSize s c
      · simp only [updateRoomInfo, hl, if_pos hu]
        have hne : code ≠ c := by
          intro he
          rw [he, hl] at h
          cases h
        rw [alookup_aupdate_ne _ _ _ _ hne]
        exact h
      · simpa [updateRoomInfo, hl, hu] using h

theorem redis_updateRoomInfo (now : Nat) (s : ServerState) (c : String) :
    (updateRoomInfo now s c).fst.redisRooms = s.redisRooms ∧
    (updateRoomInfo now s c).fst.redisAvailable = s.redisAvailable := by
  cases hl : alookup s.rooms c with
  | none => simp [updateRoomInfo, hl]
  | some room =>
      by_cases hu : room.users ≠ liveSize s c <;> simp [updateRoomInfo, hl, hu]

theorem fields_adapterLeave (s : ServerState) (sid code : String) :
    (adapterLeave s sid code).redisRooms = s.redisRooms ∧
    (adapterLeave s sid code).redisAvailable = s.redisAvailable := by
  simp only [adapterLeave]
  split <;> exact ⟨rfl, rfl⟩

theorem joinLeavePhase_none (now : Nat) (s : ServerState) (sid code : String)
    (h : alookup s.rooms code = none) :
    alookup (joinLeavePhase now s sid).fst.rooms code = none ∧
    (joinLeavePhase now s sid).fst.redisRooms = s.redisRooms ∧
    (joinLeavePhase now s sid).fst.redisAvailable = s.redisAvailable := by
  cases hc : alookup s.currentRoom sid with
  | none =>
      refine ⟨?_, ?_, ?_⟩
      · simp only [joinLeavePhase, hc]
        exact h
      · simp [joinLeavePhase, hc]
      · simp [joinLeavePhase, hc]
  | some prev =>
      simp only [joinLeavePhase, hc]
      refine ⟨?_, ?_, ?_⟩
      · exact lookup_none_updateRoomInfo now (adapterLeave s sid prev) prev code
          (by rw [rooms_adapterLeave]; exact h)
      · rw [(redis_updateRoomInfo now (adapterLeave s sid prev) prev).1,
          (fields_adapterLeave s sid prev).1]
      · rw [(redis_updateRoomInfo now (adapterLeave s sid prev) prev).2,
          (fields_adapterLeave s sid prev).2]

/-- C2 counterexample: room `777777` is brought into existence by the HTTP
room-page route and then first-joined by socket `B`; afterwards the room
exists with `B` in its live set, yet its `creatorId` is still absent —
it was never set to the identity of the first party to create or
first-join the room. -/
theorem creator_binding_counterexample :
    (alookup ((step 5 (step 1 stEmpty (Event.httpRoomPage "777777")).fst
        (Event.joinRoom "B" "777777")).fst).rooms "777777").map RoomInfo.creatorId =
      some none ∧
    "B" ∈ liveSet ((step 5 (step 1 stEmpty (Event.httpRoomPage "777777")).fst
        (Event.joinRoom "B" "777777")).fst) "777777" := by
  decide

/-- C2 (amended): `creatorId` is fixed at creation time — every event
preserves the creator binding of every room that survives it — and the
binding created is: the requester-derived id on the API path
(`createRoom`), the joining socket on the socket first-join path, and no
creator at all on the HTTP room-page path. -/
theorem creator_binding_amended :
    (∀ now s e, CreatorStable s (step now s e).fst) ∧
    (∀ now s code, alookup s.rooms code = none →
       (alookup (handleRoomPage now s code).fst.rooms code).map RoomInfo.creatorId =
         some none) ∧
    (∀ now s sid code,
       alookup s.rooms code = none →
       (s.redisAvailable = true → alookup s.redisRooms code = none) →
       (alookup (handleJoinRoom now s sid code).fst.rooms code).map RoomInfo.creatorId =
         some (some sid)) ∧
    (∀ now s code cid,
       (alookup (createRoom now s code cid).rooms code).map RoomInfo.creatorId =
         some cid) := by
  refine ⟨creatorStable_step, ?_, ?_, ?_⟩
  · intro now s code h
    have hrooms : (handleRoomPage now s code).fst.rooms =
        aupdate s.rooms code
          ({ createdAt := now, lastActive := now, users := 0,
             creatorId := none, drawingEnabled := DrawFlag.undef }) := by
      by_cases hav : s.redisAvailable <;> simp [handleRoomPage, h, hav]
    rw [hrooms, alookup_aupdate_self]
    rfl
  · intro now s sid code h hredis
    obtain ⟨h1, h2, h3⟩ := joinLeavePhase_none now s sid code h
    simp only [handleJoinRoom]
    have hlookup : (joinLookupPhase now (joinLeavePhase now s sid).fst sid code).fst.rooms =
        aupdate (joinLeavePhase now s sid).fst.rooms code
          ({ createdAt := now, lastActive := now, users := 0,
             creatorId := some sid, drawingEnabled := DrawFlag.boolVal true }) := by
      by_cases hav : (joinLeavePhase now s sid).fst.redisAvailable
      · have hrn : alookup (joinLeavePhase now s sid).fst.redisRooms code = none := by
          rw [h2]
          exact hredis (h3 ▸ hav)
        simp only [joinLookupPhase, h1, hav, if_true, hrn]
        by_cases hav2 : (joinLeavePhase now s sid).fst.redisAvailable <;>
          simp [joinCreateRoom, hav2]
      · simp only [joinLookupPhase, h1, hav, if_false]
        by_cases hav2 : (joinLeavePhase now s sid).fst.redisAvailable <;>
          simp [joinCreateRoom, hav2]
    have hafter : alookup (joinJoined
        (joinLookupPhase now (joinLeavePhase now s sid).fst sid code).fst sid code).rooms
          code =
        some ({ createdAt := now, lastActive := now, users := 0,
                creatorId := some sid, drawingEnabled := DrawFlag.boolVal true }) := by
      rw [rooms_joinJoined, hlookup]
      exact alookup_aupdate_self _ _ _
    obtain ⟨r', hr', he⟩ := creatorMono_updateRoomInfo now
      (joinJoined (joinLookupPhase now (joinLeavePhase now s sid).fst sid code).fst sid code)
      code code _ hafter
    rw [hr']
    simp [Option.map, he]
  · intro now s code cid
    have hrooms : (createRoom now s code cid).rooms =
        aupdate s.rooms code
          ({ createdAt := now, lastActive := now, users := 0,
             creatorId := cid, drawingEnabled := DrawFlag.boolVal true }) := by
      by_cases hav : s.redisAvailable <;> simp [createRoom, hav]
    rw [hrooms, alookup_aupdate_self]
    rfl

/-- Witness for `creator_binding_amended`: the creator toggling drawing
preserves the binding of room `482913`; the page route creates `777777`
creatorless; a socket first-join of unknown `888888` binds the joiner; and
`createRoom` binds the requested id. -/
theorem creator_binding_amended_witness :
    (alookup stDisabled.rooms "482913" = some roomDisabled ∧
     alookup (step 0 stDisabled (Event.toggleDrawing "A" true)).fst.rooms "482913" =
       some roomToggledOn ∧
     roomToggledOn.creatorId = roomDisabled.creatorId) ∧
    (alookup stEmpty.rooms "777777" = none ∧
     (alookup (handleRoomPage 1 stEmpty "777777").fst.rooms "777777").map
         RoomInfo.creatorId = some none) ∧
    (alookup stEmpty.rooms "888888" = none ∧
     (alookup (handleJoinRoom 4 stEmpty "B" "888888").fst.rooms "888888").map
         RoomInfo.creatorId = some (some "B")) ∧
    (alookup (createRoom 0 stEmpty "123123" (some "ip-1")).rooms "123123").map
        RoomInfo.creatorId = some (some "ip-1") :=
  ⟨⟨by decide, by decide,
    creator_binding_amended.1 0 stDisabled (Event.toggleDrawing "A" true)
      "482913" roomDisabled roomToggledOn (by decide) (by decide)⟩,
   ⟨by decide, creator_binding_amended.2.1 1 stEmpty "777777" (by decide)⟩,
   ⟨by decide, creator_binding_amended.2.2.1 4 stEmpty "B" "888888" (by decide)
      (by decide)⟩,
   creator_binding_amended.2.2.2 0 stEmpty "123123" (some "ip-1")⟩

/-! ### C6: reported member counts -/

theorem countEmissions_append (a b : List Emission) :
    countEmissions (a ++ b) = countEmissions a ++ countEmissions b := by
  induction a with
  | nil => rfl
  | cons e rest ih => cases e <;> simp [countEmissions, ih]

theorem liveSize_eq_of_adapter {t u : ServerState} (h : t.adapter = u.adapter)
    (c : String) : liveSize t c = liveSize u c := by
  simp [liveSize, liveSet, h]

theorem adapter_updateRoomInfo (now : Nat) (s : ServerState) (c : String) :
    (updateRoomInfo now s c).fst.adapter = s.adapter := by
  cases hl : alookup s.rooms c with
  | none => simp [updateRoomInfo, hl]
  | some room =>
      by_cases hu : room.users ≠ liveSize s c <;> simp [updateRoomInfo, hl, hu]

theorem counts_updateRoomInfo_all (now : Nat) (s : ServerState) (c : String) :
    ∀ p ∈ countEmissions (updateRoomInfo now s c).snd, p = (c, liveSize s c) := by
  cases hl : alookup s.rooms c with
  | none => simp [updateRoomInfo, hl, countEmissions]
  | some room =>
      by_cases hu : room.users ≠ liveSize s c <;>
        simp [updateRoomInfo, hl, hu, countEmissions]

theorem counts_updateRoomInfo (now : Nat) (s : ServerState) (c : String) :
    ∀ p ∈ countEmissions (updateRoomInfo now s c).snd, p.2 = liveSize s p.1 := by
  intro p hp
  rw [counts_updateRoomInfo_all now s c p hp]

theorem counts_joinLeavePhase (now : Nat) (s : ServerState) (sid : String) :
    ∀ p ∈ countEmissions (joinLeavePhase now s sid).snd,
      p.2 = liveSize (joinLeavePhase now s sid).fst p.1 := by
  cases hc : alookup s.currentRoom sid with
  | none => simp [joinLeavePhase, hc, countEmissions]
  | some prev =>
      intro p hp
      simp only [joinLeavePhase, hc] at hp ⊢
      rw [countEmissions_append] at hp
      have h2 : countEmissions [Emission.userLeftPlain prev sid] = [] := rfl
      rw [h2, List.append_nil] at hp
      have hval := counts_updateRoomInfo now (adapterLeave s sid prev) prev p hp
      have hl2 : liveSize ({ (updateRoomInfo now (adapterLeave s sid prev) prev).fst with
          userRooms := aerase (updateRoomInfo now (adapterLeave s sid prev) prev).fst.userRooms
            sid }) p.1 = liveSize (adapterLeave s sid prev) p.1 := by
        exact liveSize_eq_of_adapter (adapter_updateRoomInfo now (adapterLeave s sid prev) prev)
          p.1
      rw [hl2]
      exact hval

theorem counts_handleJoinRoom (now : Nat) (s : ServerState) (sid code : String) :
    ∃ tail,
      countEmissions (handleJoinRoom now s sid code).snd =
        countEmissions (joinLeavePhase now s sid).snd ++ tail ∧
      ∀ p ∈ tail, p = (code, liveSize (handleJoinRoom now s sid code).fst code) := by
  refine ⟨countEmissions (updateRoomInfo now
      (joinJoined (joinLookupPhase now (joinLeavePhase now s sid).fst sid code).fst sid code)
      code).snd ++
    [(code, liveSize (handleJoinRoom now s sid code).fst code),
     (code, liveSize (handleJoinRoom now s sid code).fst code)], ?_, ?_⟩
  · simp only [handleJoinRoom]
    rw [countEmissions_append, countEmissions_append, countEmissions_append,
      countEmissions_append]
    have h4 : countEmissions (if (updateRoomInfo now
        (joinJoined (joinLookupPhase now (joinLeavePhase now s sid).fst sid code).fst sid
          code) code).fst.redisAvailable = true then
          [Emission.loadDrawing sid ((alookup (updateRoomInfo now
            (joinJoined (joinLookupPhase now (joinLeavePhase now s sid).fst sid code).fst sid
              code) code).fst.redisPoints code).getD [])]
        else [Emission.loadDrawing sid []]) = [] := by
      split <;> rfl
    have h5 : countEmissions (if (updateRoomInfo now
        (joinJoined (joinLookupPhase now (joinLeavePhase now s sid).fst sid code).fst sid
          code) code).fst.redisAvailable = true then
          (if ((alookup (updateRoomInfo now
              (joinJoined (joinLookupPhase now (joinLeavePhase now s sid).fst sid code).fst
                sid code) code).fst.redisImages code).getD []).length > 0 then
            [Emission.loadImages sid ((alookup (updateRoomInfo now
              (joinJoined (joinLookupPhase now (joinLeavePhase now s sid).fst sid code).fst
                sid code) code).fst.redisImages code).getD [])]
          else [])
        else [Emission.loadImages sid []]) = [] := by
      split
      · split <;> rfl
      · rfl
    rw [h4, h5, List.append_nil, List.append_nil]
    have h3 : countEmissions
        [Emission.roomJoined sid code (liveSize (updateRoomInfo now
            (joinJoined (joinLookupPhase now (joinLeavePhase now s sid).fst sid code).fst
              sid code) code).fst code)
          ((joinLookupPhase now (joinLeavePhase now s sid).fst sid code).snd.creatorId =
            some sid)
          (joinLookupPhase now (joinLeavePhase now s sid).fst sid code).snd.drawingEnabled,
         Emission.userJoined code sid (liveSize (updateRoomInfo now
            (joinJoined (joinLookupPhase now (joinLeavePhase now s sid).fst sid code).fst
              sid code) code).fst code)] =
        [(code, liveSize (updateRoomInfo now
            (joinJoined (joinLookupPhase now (joinLeavePhase now s sid).fst sid code).fst
              sid code) code).fst code),
         (code, liveSize (updateRoomInfo now
            (joinJoined (joinLookupPhase now (joinLeavePhase now s sid).fst sid code).fst
              sid code) code).fst code)] := rfl
    rw [h3, List.append_assoc]
  · intro p hp
    rcases List.mem_append.mp hp with hmem | hmem
    · have := counts_updateRoomInfo_all now
        (joinJoined (joinLookupPhase now (joinLeavePhase now s sid).fst sid code).fst sid
          code) code p hmem
      rw [this]
      have hfin : liveSize
          (joinJoined (joinLookupPhase now (joinLeavePhase now s sid).fst sid code).fst sid
            code) code = liveSize (handleJoinRoom now s sid code).fst code := by
        refine (liveSize_eq_of_adapter ?_ code).symm
        simp only [handleJoinRoom]
        exact adapter_updateRoomInfo now _ code
      rw [hfin]
    · have hx : p = (code, liveSize (handleJoinRoom now s sid code).fst code) ∨
          p = (code, liveSize (handleJoinRoom now s sid code).fst code) := by
        simpa using hmem
      rcases hx with h | h <;> exact h

theorem counts_handleDisconnect (now : Nat) (s : ServerState) (sid : String) :
    ∀ p ∈ countEmissions (handleDisconnect now s sid).snd,
      p.2 = liveSize (handleDisconnect now s sid).fst p.1 := by
  cases hc : alookup s.currentRoom sid with
  | none => simp [handleDisconnect, hc, countEmissions]
  | some code =>
      intro p hp
      simp only [handleDisconnect, hc] at hp ⊢
      rw [countEmissions_append, countEmissions_append] at hp
      have hem1 : countEmissions
          (match alookup (adapterLeave s sid code).rooms code with
           | some roomInfo =>
               match alookup (adapterLeave s sid code).adapter code with
               | some members => [Emission.usersListEvt code members roomInfo.creatorId]
               | none => []
           | none => []) = [] := by
        cases alookup (adapterLeave s sid code).rooms code with
        | none => rfl
        | some ri =>
            cases alookup (adapterLeave s sid code).adapter code with
            | none => rfl
            | some members => rfl
      rw [hem1] at hp
      simp only [List.nil_append] at hp
      rcases List.mem_append.mp hp with hmem | hmem
      · have hval := counts_updateRoomInfo_all now
          ({ adapterLeave s sid code with
             userRooms := aerase (adapterLeave s sid code).userRooms sid }) code p hmem
        rw [hval]
        exact (liveSize_eq_of_adapter (adapter_updateRoomInfo now _ code) code).symm
      · have hval : p = (code, liveSize (updateRoomInfo now
            ({ adapterLeave s sid code with
               userRooms := aerase (adapterLeave s sid code).userRooms sid }) code).fst
            code) := by
          simpa [countEmissions] using hmem
        rw [hval]

theorem adapter_reconcileRoom (now : Nat) (acc : ServerState × List Emission)
    (c : String) : (reconcileRoom now acc c).fst.adapter = acc.fst.adapter := by
  cases hl : alookup acc.fst.rooms c with
  | none => simp [reconcileRoom, hl]
  | some room =>
      by_cases hu : room.users ≠ liveSize acc.fst c
      · by_cases hav : acc.fst.redisAvailable
        · cases hh : alookup acc.fst.redisRooms c <;>
            simp [reconcileRoom, hl, hu, hav, hh]
        · simp [reconcileRoom, hl, hu, hav]
      · simp [reconcileRoom, hl, hu]

theorem counts_reconcileRoom (now : Nat) (acc : ServerState × List Emission) (c : String)
    (hinv : ∀ p ∈ countEmissions acc.snd, p.2 = liveSize acc.fst p.1) :
    ∀ p ∈ countEmissions (reconcileRoom now acc c).snd,
      p.2 = liveSize (reconcileRoom now acc c).fst p.1 := by
  intro p hp
  have hadap := adapter_reconcileRoom now acc c
  cases hl : alookup acc.fst.rooms c with
  | none =>
      rw [liveSize_eq_of_adapter hadap]
      simp only [reconcileRoom, hl] at hp
      exact hinv p hp
  | some room =>
      rw [liveSize_eq_of_adapter hadap]
      by_cases hu : room.users ≠ liveSize acc.fst c
      · have hsnd : (reconcileRoom now acc c).snd =
            acc.snd ++ [Emission.userCountUpdated c (liveSize acc.fst c)] := by
          by_cases hav : acc.fst.redisAvailable
          · cases hh : alookup acc.fst.redisRooms c <;>
              simp [reconcileRoom, hl, hu, hav, hh]
          · simp [reconcileRoom, hl, hu, hav]
        rw [hsnd, countEmissions_append] at hp
        rcases List.mem_append.mp hp with hmem | hmem
        · exact hinv p hmem
        · have hx : p = (c, liveSize acc.fst c) := by
            simpa [countEmissions] using hmem
          rw [hx]
      · simp only [reconcileRoom, hl, if_neg hu] at hp
        exact hinv p hp

theorem counts_fold_reconcile (now : Nat) :
    ∀ (codes : List String) (acc : ServerState × List Emission),
      (∀ p ∈ countEmissions acc.snd, p.2 = liveSize acc.fst p.1) →
      ∀ p ∈ countEmissions ((codes.foldl (reconcileRoom now) acc)).snd,
        p.2 = liveSize ((codes.foldl (reconcileRoom now) acc)).fst p.1 := by
  intro codes
  induction codes with
  | nil => intro acc h; exact h
  | cons c rest ih =>
      intro acc h
      simp only [List.foldl_cons]
      exact ih (reconcileRoom now acc c) (counts_reconcileRoom now acc c h)

theorem snd_evictRoom (now : Nat) (acc : ServerState × List Emission) (c : String) :
    (evictRoom now acc c).snd = acc.snd := by
  cases hl : alookup acc.fst.rooms c with
  | none => simp [evictRoom, hl]
  | some room =>
      simp only [evictRoom, hl]
      split
      · split <;> rfl
      · rfl

theorem adapter_evictRoom (now : Nat) (acc : ServerState × List Emission) (c : String) :
    (evictRoom now acc c).fst.adapter = acc.fst.adapter := by
  cases hl : alookup acc.fst.rooms c with
  | none => simp [evictRoom, hl]
  | some room =>
      simp only [evictRoom, hl]
      split
      · split <;> rfl
      · rfl

theorem fold_evict_preserves (now : Nat) :
    ∀ (codes : List String) (acc : ServerState × List Emission),
      (codes.foldl (evictRoom now) acc).snd = acc.snd ∧
      (codes.foldl (evictRoom now) acc).fst.adapter = acc.fst.adapter := by
  intro codes
  induction codes with
  | nil => intro acc; exact ⟨rfl, rfl⟩
  | cons c rest ih =>
      intro acc
      simp only [List.foldl_cons]
      obtain ⟨h1, h2⟩ := ih (evictRoom now acc c)
      exact ⟨h1.trans (snd_evictRoom now acc c),
        h2.trans (adapter_evictRoom now acc c)⟩

theorem counts_handleInterval (now : Nat) (s : ServerState) :
    ∀ p ∈ countEmissions (handleInterval now s).snd,
      p.2 = liveSize (handleInterval now s).fst p.1 := by
  intro p hp
  simp only [handleInterval] at hp ⊢
  obtain ⟨hsnd, hadap⟩ := fold_evict_preserves now
    (((s.rooms.map Prod.fst).foldl (reconcileRoom now) (s, [])).fst.rooms.map Prod.fst)
    ((s.rooms.map Prod.fst).foldl (reconcileRoom now) (s, []))
  rw [hsnd] at hp
  rw [liveSize_eq_of_adapter hadap]
  have hbase : ∀ q ∈ countEmissions (s, ([] : List Emission)).snd,
      Prod.snd q = liveSize (s, ([] : List Emission)).fst q.1 := by
    intro q hq
    cases hq
  exact counts_fold_reconcile now (s.rooms.map Prod.fst) (s, []) hbase p hp

/-- C6: every member count a notification carries equals the size of the
room's live connection set at the time of the report: `updateRoomInfo`
reports the recomputed live size (leaving the live set untouched); the
counts a join emits beyond its leave-phase reports — `roomJoined`,
`userJoined` and any drift correction — all equal the live size after the
join, while the leave-phase reports equal the live size right after leaving
(the `userLeft` sent there carries no count); a disconnect reports the live
size after the removal; and the reconcile interval reports the recomputed
live size for every drifted room.  No reported count is an incremented or
decremented cached value. -/
theorem member_count_live :
    (∀ now s code, ∀ p ∈ countEmissions (updateRoomInfo now s code).snd,
       p.2 = liveSize s p.1) ∧
    (∀ now s sid, ∀ p ∈ countEmissions (joinLeavePhase now s sid).snd,
       p.2 = liveSize (joinLeavePhase now s sid).fst p.1) ∧
    (∀ now s sid code, ∃ tail,
       countEmissions (handleJoinRoom now s sid code).snd =
         countEmissions (joinLeavePhase now s sid).snd ++ tail ∧
       ∀ p ∈ tail, p = (code, liveSize (handleJoinRoom now s sid code).fst code)) ∧
    (∀ now s sid, ∀ p ∈ countEmissions (handleDisconnect now s sid).snd,
       p.2 = liveSize (handleDisconnect now s sid).fst p.1) ∧
    (∀ now s, ∀ p ∈ countEmissions (handleInterval now s).snd,
       p.2 = liveSize (handleInterval now s).fst p.1) :=
  ⟨counts_updateRoomInfo, counts_joinLeavePhase, counts_handleJoinRoom,
   counts_handleDisconnect, counts_handleInterval⟩

/-- Witness for `member_count_live`: `B` disconnecting from the two-member
room leaves live size 1, and both counts reported by the disconnect equal
it. -/
theorem member_count_live_witness :
    (("482913", 1) ∈ countEmissions (handleDisconnect 7 stDisabled "B").snd ∧
     (("482913", 1) : String × Nat).2 =
       liveSize (handleDisconnect 7 stDisabled "B").fst
         (("482913", 1) : String × Nat).1) :=
  ⟨by decide, member_count_live.2.2.2.1 7 stDisabled "B" ("482913", 1) (by decide)⟩

end Whiteboard

